import Mathlib

/-!
Verification development for the TUN reconciliation module of clash-cli
(src/tun.rs).  The external world (files, firewall state, process
invocations) is modelled explicitly; all functions are translated from the
Rust source.
-/

namespace ClashTun

/-- Bit position of CAP_NET_ADMIN in the CapEff bitmask (src/tun.rs line 15). -/
def CAP_NET_ADMIN_BIT : Nat := 12

/-- Bit position of CAP_NET_RAW in the CapEff bitmask (src/tun.rs line 16). -/
def CAP_NET_RAW_BIT : Nat := 13

/-- Fixed fallback redirect port (src/tun.rs line 17). -/
def DEFAULT_REDIR_PORT : Nat := 7892

/-- The three-valued rule backend tag (src/tun.rs `RuleBackend`). -/
inductive RuleBackend where
  | nft
  | iptables
  | noneB
deriving DecidableEq, Repr

/-- Models `RuleBackend::as_str` (src/tun.rs lines 43-49). -/
def RuleBackend.as_str : RuleBackend → String
  | .nft => "nft"
  | .iptables => "iptables"
  | .noneB => "none"

/-- Models `RuleBackend::from_str` (src/tun.rs lines 51-57): unrecognized values map to `none`. -/
def RuleBackend.from_str (v : String) : RuleBackend :=
  if v = "nft" then .nft
  else if v = "iptables" then .iptables
  else .noneB

/-- The persisted reconciliation snapshot (src/tun.rs `TunState`).
`redir_port` is a u16 and `updated_at` a u64 in Rust; bounds appear as
hypotheses where they matter. -/
structure TunState where
  enabled : Bool
  service_name : String
  user_service : Bool
  backend : RuleBackend
  redir_port : Nat
  rules_applied : Bool
  updated_at : Nat
deriving DecidableEq, Repr

/-- Shallow model of the `serde_yaml::Value` subset the module manipulates:
booleans, integers, strings, nested mappings (insertion-ordered, string
keys — the module only ever creates and looks up string keys) and null. -/
inductive Yaml where
  | nullV
  | boolV (b : Bool)
  | intV (n : Int)
  | strV (s : String)
  | mapV (entries : List (String × Yaml))

/-- Models `Mapping::contains_key` on the modelled mapping. -/
def mapContains (m : List (String × Yaml)) (k : String) : Bool :=
  m.any (fun p => p.1 = k)

/-- Models `Mapping::get` on the modelled mapping. -/
def mapGet (m : List (String × Yaml)) (k : String) : Option Yaml :=
  (m.find? (fun p => p.1 = k)).map Prod.snd

/-- Models `Mapping::insert`: replace in place when the key is present, append
otherwise (serde_yaml mappings preserve insertion order). -/
def mapInsert (m : List (String × Yaml)) (k : String) (v : Yaml) : List (String × Yaml) :=
  if mapContains m k then m.map (fun p => if p.1 = k then (p.1, v) else p)
  else m ++ [(k, v)]

/-- The entries of a value when it is a mapping, `[]` otherwise (the coercion
`ensure_mapping_path` performs on non-mapping nodes). -/
def rootEntries : Yaml → List (String × Yaml)
  | .mapV m => m
  | _ => []

/-- Models `key_value` (src/tun.rs lines 1390-1393): mapping lookup on the root. -/
def key_value (root : Yaml) (key : String) : Option Yaml :=
  match root with
  | .mapV m => mapGet m key
  | _ => none

/-- Models `bool_field` (src/tun.rs lines 1395-1401). -/
def bool_field (root : Option Yaml) (key : String) : Option Bool :=
  root.bind fun v =>
    match v with
    | .mapV m =>
      (mapGet m key).bind fun w =>
        match w with
        | .boolV b => some b
        | _ => none
    | _ => none

/-- Models `string_field` (src/tun.rs lines 1403-1410). -/
def string_field (root : Option Yaml) (key : String) : Option String :=
  root.bind fun v =>
    match v with
    | .mapV m =>
      (mapGet m key).bind fun w =>
        match w with
        | .strV s => some s
        | _ => none
    | _ => none

/-- One decimal digit character. -/
def digitChar (d : Nat) : Char :=
  match d with
  | 0 => '0' | 1 => '1' | 2 => '2' | 3 => '3' | 4 => '4'
  | 5 => '5' | 6 => '6' | 7 => '7' | 8 => '8' | _ => '9'

/-- Numeric value of a decimal digit character. -/
def charVal (c : Char) : Nat := c.toNat - 48

/-- Big-endian decimal digits of a natural number (models Rust's `Display`
for unsigned integers). -/
def natDigitsBE (n : Nat) : List Char :=
  if _h : n < 10 then [digitChar n]
  else natDigitsBE (n / 10) ++ [digitChar (n % 10)]
decreasing_by exact Nat.div_lt_self (by omega) (by omega)

/-- Decimal rendering of a natural number. -/
def natToStr (n : Nat) : String := String.mk (natDigitsBE n)

/-- Rust `Display` for `bool`. -/
def boolToStr (b : Bool) : String := if b then "true" else "false"

/-- Value of a big-endian digit-character list. -/
def digitsToNat (l : List Char) : Nat :=
  l.foldl (fun acc c => acc * 10 + charVal c) 0

/-- Core of Rust's unsigned `from_str`: a nonempty all-digit string. -/
def parseNatCore (l : List Char) : Option Nat :=
  if l ≠ [] ∧ l.all Char.isDigit then some (digitsToNat l) else none

/-- Rust's unsigned decimal parse: an optional leading plus sign, then
nonempty digits. -/
def parseUInt (l : List Char) : Option Nat :=
  match l with
  | '+' :: rest => parseNatCore rest
  | _ => parseNatCore l

/-- Models `str::parse::<u16>` (overflow rejected). -/
def parseU16 (s : String) : Option Nat :=
  (parseUInt s.data).bind fun n => if n ≤ 65535 then some n else none

/-- Models `str::parse::<u64>` (overflow rejected). -/
def parseU64 (s : String) : Option Nat :=
  (parseUInt s.data).bind fun n => if n < 2 ^ 64 then some n else none

/-- Models `u16_field` (src/tun.rs lines 1412-1426): accepts an in-range integer or
a numeric string. -/
def u16_field (root : Option Yaml) (key : String) : Option Nat :=
  root.bind fun v =>
    match v with
    | .mapV m =>
      (mapGet m key).bind fun w =>
        match w with
        | .intV i => if 0 ≤ i ∧ i ≤ 65535 then some i.toNat else none
        | .strV s => parseU16 s
        | _ => none
    | _ => none

/-- Models `ensure_mapping_path` fused with the single mapping update each setter
performs (src/tun.rs lines 1485-1503): non-mapping nodes along the path are
replaced by empty mappings, missing segments are created. -/
def updateAtPath (root : Yaml) (pathKeys : List String)
    (f : List (String × Yaml) → List (String × Yaml)) : Yaml :=
  match pathKeys with
  | [] => .mapV (f (rootEntries root))
  | k :: rest =>
    let m := rootEntries root
    let child := (mapGet m k).getD (.mapV [])
    .mapV (mapInsert m k (updateAtPath child rest f))

/-- Models `set_bool_field` (src/tun.rs lines 1457-1459). -/
def set_bool_field (root : Yaml) (pathKeys : List String) (key : String) (value : Bool) : Yaml :=
  updateAtPath root pathKeys (fun m => mapInsert m key (.boolV value))

/-- Models `set_default_bool_field` (src/tun.rs lines 1461-1467): writes only when
the key is absent. -/
def set_default_bool_field (root : Yaml) (pathKeys : List String) (key : String) (value : Bool) : Yaml :=
  updateAtPath root pathKeys (fun m => if mapContains m key then m else mapInsert m key (.boolV value))

/-- Models `set_default_string_field` (src/tun.rs lines 1469-1475). -/
def set_default_string_field (root : Yaml) (pathKeys : List String) (key : String) (value : String) : Yaml :=
  updateAtPath root pathKeys (fun m => if mapContains m key then m else mapInsert m key (.strV value))

/-- Models `set_default_u16_field` (src/tun.rs lines 1477-1483). -/
def set_default_u16_field (root : Yaml) (pathKeys : List String) (key : String) (value : Nat) : Yaml :=
  updateAtPath root pathKeys (fun m => if mapContains m key then m else mapInsert m key (.intV value))

/-- The config mutation block of `cmd_on` (src/tun.rs lines 258-270), in
source order. -/
def tunOnMutateConfig (root : Yaml) : Yaml :=
  let root := set_bool_field root ["tun"] "enable" true
  let root := set_default_bool_field root ["tun"] "auto-route" true
  let root := set_default_bool_field root ["tun"] "auto-detect-interface" true
  let root := set_default_bool_field root ["tun"] "auto-redirect" true
  let root := set_default_bool_field root ["tun"] "strict-route" false
  let root := set_default_string_field root ["tun"] "stack" "mixed"
  let root := set_default_bool_field root ["dns"] "enable" true
  let root := set_bool_field root [] "ipv6" false
  let root := set_bool_field root ["dns"] "ipv6" false
  let root := set_default_string_field root ["dns"] "enhanced-mode" "fake-ip"
  let root := set_default_u16_field root [] "redir-port" DEFAULT_REDIR_PORT
  root

/-- Drop one trailing carriage return from a REVERSED line (Rust's `lines`
removes a final CR only from a line that ended in a newline). -/
def stripCRLast (l : List Char) : List Char :=
  match l with
  | '\r' :: rest => rest
  | _ => l

/-- Worker for Rust's `str::lines`: split at newlines, removing a CR that
immediately precedes a newline; a final segment without a newline is kept
as-is, and a trailing newline produces no extra empty line.  The
accumulator holds the current line reversed. -/
def splitLinesAux : List Char → List Char → List (List Char)
  | [], acc => if acc.isEmpty then [] else [acc.reverse]
  | c :: rest, acc =>
    if c = '\n' then (stripCRLast acc).reverse :: splitLinesAux rest []
    else splitLinesAux rest (c :: acc)

/-- Rust `str::lines`. -/
def rustLines (s : String) : List (List Char) := splitLinesAux s.data []

/-- Rust `char::is_whitespace`: the Unicode White_Space code points
(U+0009-U+000D, U+0020, U+0085, U+00A0, U+1680, U+2000-U+200A, U+2028,
U+2029, U+202F, U+205F, U+3000). -/
def rustIsWhitespace (c : Char) : Bool :=
  decide ((9 ≤ c.toNat ∧ c.toNat ≤ 13) ∨ c.toNat = 32 ∨ c.toNat = 133 ∨ c.toNat = 160 ∨
    c.toNat = 5760 ∨ (8192 ≤ c.toNat ∧ c.toNat ≤ 8202) ∨ c.toNat = 8232 ∨ c.toNat = 8233 ∨
    c.toNat = 8239 ∨ c.toNat = 8287 ∨ c.toNat = 12288)

/-- Rust `str::trim`: strips the Unicode White_Space characters that
`char::is_whitespace` recognizes from both ends. -/
def trimChars (l : List Char) : List Char :=
  ((l.dropWhile rustIsWhitespace).reverse.dropWhile rustIsWhitespace).reverse

/-- Rust `splitn(2, '=')` as used by `TunState::from_text`: the part before
the first equals sign, and — when one occurs — the rest after it. -/
def splitEq : List Char → List Char × Option (List Char)
  | [] => ([], none)
  | c :: rest =>
    if c = '=' then ([], some rest)
    else
      let r := splitEq rest
      (c :: r.1, r.2)

/-- Models `TunState::to_text` (src/tun.rs lines 72-83). -/
def TunState.to_text (s : TunState) : String :=
  "enabled=" ++ boolToStr s.enabled ++ "\n" ++
  "service_name=" ++ s.service_name ++ "\n" ++
  "user_service=" ++ boolToStr s.user_service ++ "\n" ++
  "backend=" ++ s.backend.as_str ++ "\n" ++
  "redir_port=" ++ natToStr s.redir_port ++ "\n" ++
  "rules_applied=" ++ boolToStr s.rules_applied ++ "\n" ++
  "updated_at=" ++ natToStr s.updated_at ++ "\n"

/-- Accumulator of `TunState::from_text`: the seven `Option` locals. -/
structure ParseAcc where
  enabled : Option Bool := none
  service_name : Option String := none
  user_service : Option Bool := none
  backend : Option RuleBackend := none
  redir_port : Option Nat := none
  rules_applied : Option Bool := none
  updated_at : Option Nat := none
deriving DecidableEq, Repr

/-- One iteration of the line loop of `TunState::from_text`
(src/tun.rs lines 94-120): keys and values are trimmed, unknown keys are
ignored, numeric fields propagate their parse errors. -/
def procLine (acc : ParseAcc) (line : List Char) : Except String ParseAcc :=
  let parts := splitEq line
  let key := trimChars parts.1
  let value := trimChars (parts.2.getD [])
  if key = "enabled".data then .ok { acc with enabled := some (value = "true".data) }
  else if key = "service_name".data then .ok { acc with service_name := some (String.mk value) }
  else if key = "user_service".data then .ok { acc with user_service := some (value = "true".data) }
  else if key = "backend".data then .ok { acc with backend := some (RuleBackend.from_str (String.mk value)) }
  else if key = "redir_port".data then
    match parseU16 (String.mk value) with
    | some n => .ok { acc with redir_port := some n }
    | none => .error "解析 tun.state.redir_port 失败"
  else if key = "rules_applied".data then .ok { acc with rules_applied := some (value = "true".data) }
  else if key = "updated_at".data then
    match parseU64 (String.mk value) with
    | some n => .ok { acc with updated_at := some n }
    | none => .error "解析 tun.state.updated_at 失败"
  else .ok acc

/-- Finalization of `TunState::from_text` (src/tun.rs lines 122-130):
`enabled`, `service_name`, `user_service` and `updated_at` are required;
`backend`, `redir_port` and `rules_applied` have defaults. -/
def finalizeAcc (acc : ParseAcc) : Except String TunState :=
  match acc.enabled with
  | none => .error "tun.state 缺少 enabled"
  | some enabled =>
    match acc.service_name with
    | none => .error "tun.state 缺少 service_name"
    | some service_name =>
      match acc.user_service with
      | none => .error "tun.state 缺少 user_service"
      | some user_service =>
        match acc.updated_at with
        | none => .error "tun.state 缺少 updated_at"
        | some updated_at =>
          .ok { enabled := enabled
                service_name := service_name
                user_service := user_service
                backend := acc.backend.getD .noneB
                redir_port := acc.redir_port.getD DEFAULT_REDIR_PORT
                rules_applied := acc.rules_applied.getD false
                updated_at := updated_at }

/-- Models `TunState::from_text` (src/tun.rs lines 85-131). -/
def TunState.from_text (content : String) : Except String TunState := do
  let acc ← (rustLines content).foldlM procLine {}
  finalizeAcc acc

/-- Presence of the three jump rules this tool manages for one iptables
binary: the plain PREROUTING jump, the owner-restricted OUTPUT jump, and
the plain OUTPUT jump (created by no code path here but probed during
cleanup). -/
structure IptChains where
  pre : Bool
  outOwner : Bool
  outPlain : Bool
deriving DecidableEq, Repr

/-- Which iptables binary a parametrised helper acts on. -/
inductive IptBinary where
  | v4
  | v6
deriving DecidableEq, Repr

/-- The external firewall/tool environment: which control binaries are
invocable, which of the tool's reserved objects currently exist, and
whether the mutating invocations of each tool succeed.  Binaries appearing
and disappearing mid-run is not modelled (the Rust code equally assumes a
stable toolchain within one command). -/
structure FwWorld where
  nftBin : Bool
  iptBin : Bool
  ip6tBin : Bool
  nftTable : Bool
  v4 : IptChains
  v6 : IptChains
  nftDeleteOk : Bool
  nftScriptOk : Bool
  iptCmdOk : Bool
  ip6tCmdOk : Bool
deriving DecidableEq, Repr

/-- Models `command_exists` for an iptables binary. -/
def binExists (w : FwWorld) : IptBinary → Bool
  | .v4 => w.iptBin
  | .v6 => w.ip6tBin

/-- Whether mutating invocations of an iptables binary succeed. -/
def binCmdOk (w : FwWorld) : IptBinary → Bool
  | .v4 => w.iptCmdOk
  | .v6 => w.ip6tCmdOk

/-- The managed chain-jump state of an iptables binary. -/
def chainsOf (w : FwWorld) : IptBinary → IptChains
  | .v4 => w.v4
  | .v6 => w.v6

/-- Replace the managed chain-jump state of an iptables binary. -/
def setChains (w : FwWorld) (b : IptBinary) (c : IptChains) : FwWorld :=
  match b with
  | .v4 => { w with v4 := c }
  | .v6 => { w with v6 := c }

/-- Models `nft_rules_active` (src/tun.rs lines 1156-1158): the nft binary is
invocable and the reserved table lists successfully. -/
def nft_rules_active (w : FwWorld) : Bool := w.nftBin && w.nftTable

/-- Models `iptables_rules_active` (src/tun.rs lines 1160-1224): for either
binary, the PREROUTING jump or the owner-restricted OUTPUT jump checks out. -/
def iptables_rules_active (w : FwWorld) : Bool :=
  (w.iptBin && (w.v4.pre || w.v4.outOwner)) || (w.ip6tBin && (w.v6.pre || w.v6.outOwner))

/-- Models `detect_active_rule_backend` (src/tun.rs lines 798-806). -/
def detect_active_rule_backend (w : FwWorld) : RuleBackend :=
  if nft_rules_active w then .nft
  else if iptables_rules_active w then .iptables
  else .noneB

/-- Models `select_rule_backend` (src/tun.rs lines 788-796). -/
def select_rule_backend (w : FwWorld) : Except String RuleBackend :=
  if w.nftBin then .ok .nft
  else if w.iptBin then .ok .iptables
  else .error "未检测到 nft/iptables，无法下发 tun 数据面规则"

/-- Models `cleanup_nft_rules` (src/tun.rs lines 897-905): no-op without the nft
binary; deletes the reserved table only when the active probe reports it.
Returns the resulting world and an error when the delete command fails. -/
def cleanup_nft_rules (w : FwWorld) : FwWorld × Option String :=
  if !w.nftBin then (w, none)
  else if nft_rules_active w then
    if w.nftDeleteOk then ({ w with nftTable := false }, none)
    else (w, some "命令执行失败: nft delete table")
  else (w, none)

/-- The probe-then-delete loop of `cleanup_iptables_jump`
(src/tun.rs lines 1096-1154), run with a fuel of 8: returns the remaining
presence of the jump and an error when a delete command fails. -/
def cleanup_jump_loop : Nat → Bool → Bool → Bool × Option String
  | 0, present, _ => (present, none)
  | Nat.succ fuel, present, cmdOk =>
    if present then
      if cmdOk then cleanup_jump_loop fuel false cmdOk
      else (present, some "命令执行失败: iptables -D")
    else (present, none)

/-- Models `cleanup_iptables_binary` (src/tun.rs lines 1079-1094): bails when the
binary is missing unless `optional`; otherwise removes the PREROUTING jump,
the owner-restricted OUTPUT jump and the plain OUTPUT jump in that order
(stopping at the first failure), then flushes and deletes the chain with
results ignored. -/
def cleanup_iptables_binary (w : FwWorld) (b : IptBinary) (optional : Bool) : FwWorld × Option String :=
  if !(binExists w b) then
    (w, if optional then none else some "未检测到 iptables 命令")
  else
    let c := chainsOf w b
    let ok := binCmdOk w b
    match cleanup_jump_loop 8 c.pre ok with
    | (pre', some e) => (setChains w b { c with pre := pre' }, some e)
    | (pre', none) =>
      match cleanup_jump_loop 8 c.outOwner ok with
      | (oo', some e) => (setChains w b { c with pre := pre', outOwner := oo' }, some e)
      | (oo', none) =>
        match cleanup_jump_loop 8 c.outPlain ok with
        | (op', some e) => (setChains w b { pre := pre', outOwner := oo', outPlain := op' }, some e)
        | (op', none) => (setChains w b { pre := pre', outOwner := oo', outPlain := op' }, none)

/-- Models `cleanup_iptables_rules` (src/tun.rs lines 919-923): the v4 binary is
required, the v6 binary is optional. -/
def cleanup_iptables_rules (w : FwWorld) : FwWorld × Option String :=
  match cleanup_iptables_binary w .v4 false with
  | (w', some e) => (w', some e)
  | (w', none) => cleanup_iptables_binary w' .v6 true

/-- Models `cleanup_dataplane_rules` (src/tun.rs lines 832-838). -/
def cleanup_dataplane_rules (backend : RuleBackend) (w : FwWorld) : FwWorld × Option String :=
  match backend with
  | .nft => cleanup_nft_rules w
  | .iptables => cleanup_iptables_rules w
  | .noneB => (w, none)

/-- Models `cleanup_dataplane_rules_all` (src/tun.rs lines 840-853): runs both
backend cleanups unconditionally, collecting error strings, and fails when
the collected list is nonempty. -/
def cleanup_dataplane_rules_all (w : FwWorld) : FwWorld × Option String :=
  let r1 := cleanup_nft_rules w
  let r2 := cleanup_iptables_rules r1.1
  match r1.2, r2.2 with
  | none, none => (r2.1, none)
  | some e1, none => (r2.1, some ("清理规则失败: nft: " ++ e1))
  | none, some e2 => (r2.1, some ("清理规则失败: iptables: " ++ e2))
  | some e1, some e2 => (r2.1, some ("清理规则失败: nft: " ++ e1 ++ "; iptables: " ++ e2))

/-- Models `apply_nft_rules` (src/tun.rs lines 863-895): requires the nft binary,
deletes any stale reserved table with the result ignored, loads the rule
script, then re-probes the table. -/
def apply_nft_rules (w : FwWorld) (_redirPort : Nat) : FwWorld × Option String :=
  if !w.nftBin then (w, some "未检测到 nft 命令")
  else
    let w1 := if w.nftTable && w.nftDeleteOk then { w with nftTable := false } else w
    if w1.nftScriptOk then
      let w2 := { w1 with nftTable := true }
      if nft_rules_active w2 then (w2, none)
      else (w2, some "nft 规则下发后校验失败")
    else (w1, some "命令执行失败: nft -f -")

/-- Models `configure_iptables_binary` (src/tun.rs lines 925-1023): bails when the
binary is missing unless `optional`; otherwise (re)builds the reserved
chain and ensures the PREROUTING jump and the owner-restricted OUTPUT jump
exist. -/
def configure_iptables_binary (w : FwWorld) (b : IptBinary) (_redirPort : Nat) (optional : Bool) :
    FwWorld × Option String :=
  if !(binExists w b) then
    (w, if optional then none else some "未检测到 iptables 命令")
  else if binCmdOk w b then
    (setChains w b { chainsOf w b with pre := true, outOwner := true }, none)
  else (w, some "命令执行失败: iptables")

/-- Models `apply_iptables_rules` (src/tun.rs lines 907-917): requires the v4
binary, configures v4 then (optionally) v6, then re-probes liveness. -/
def apply_iptables_rules (w : FwWorld) (redirPort : Nat) : FwWorld × Option String :=
  if !w.iptBin then (w, some "未检测到 iptables 命令")
  else
    match configure_iptables_binary w .v4 redirPort false with
    | (w1, some e) => (w1, some e)
    | (w1, none) =>
      match configure_iptables_binary w1 .v6 redirPort true with
      | (w2, some e) => (w2, some e)
      | (w2, none) =>
        if iptables_rules_active w2 then (w2, none)
        else (w2, some "iptables 规则下发后校验失败")

/-- Models `apply_dataplane_rules` (src/tun.rs lines 808-830): on an nft failure,
fall back to iptables when that binary is present; report the backend that
actually applied. -/
def apply_dataplane_rules (backend : RuleBackend) (redirPort : Nat) (w : FwWorld) :
    FwWorld × Except String RuleBackend :=
  match backend with
  | .nft =>
    match apply_nft_rules w redirPort with
    | (w1, none) => (w1, .ok .nft)
    | (w1, some nftErr) =>
      if w1.iptBin then
        match apply_iptables_rules w1 redirPort with
        | (w2, none) => (w2, .ok .iptables)
        | (w2, some e) =>
          (w2, .error ("nft 下发失败后回退 iptables 仍失败（nft 错误: " ++ nftErr ++ "）: " ++ e))
      else (w1, .error nftErr)
  | .iptables =>
    match apply_iptables_rules w redirPort with
    | (w1, none) => (w1, .ok .iptables)
    | (w1, some e) => (w1, .error e)
  | .noneB => (w, .ok .noneB)

/-- Models `TunApplyArgs` (src/cli.rs lines 274-281). -/
structure TunApplyArgs where
  name : String
  user : Bool
  no_restart : Bool
deriving DecidableEq, Repr

/-- Models `TunStatusArgs` (src/cli.rs lines 284-289). -/
structure TunStatusArgs where
  name : String
  user : Bool
deriving DecidableEq, Repr

/-- The observable system state an invocation starts from and leaves
behind: the runtime config file (at parsed-value level, `none` = absent),
the tun state file (assumed well-formed, `none` = absent), the firewall
world, device presence, service probe results and the clock. -/
structure Sys where
  configFile : Option Yaml
  stateFile : Option TunState
  fw : FwWorld
  devTun : Bool
  restartOk : Bool
  svcActive : Option Bool
  nowTime : Nat

/-- Models `load_existing_config` (src/tun.rs lines 1440-1450): a non-mapping root
parses to an empty in-memory mapping (the file is left as-is). -/
def load_existing_config (v : Yaml) : Yaml :=
  match v with
  | .mapV m => .mapV m
  | _ => .mapV []

/-- Models `load_or_init_config` (src/tun.rs lines 1428-1438): an absent file is
created holding an empty mapping.  Returns the on-disk content after the
call and the loaded document. -/
def load_or_init_config (cf : Option Yaml) : Option Yaml × Yaml :=
  match cf with
  | none => (some (.mapV []), .mapV [])
  | some v => (some v, load_existing_config v)

/-- Outcome of `cmd_on`: success, the apply-failure branch that restores
the snapshot and tags the error as rolled back, or any other error
propagated without rollback. -/
inductive OnResult where
  | okR (backend : RuleBackend) (redirPort : Nat) (rulesApplied : Bool) (restartOk : Option Bool)
  | rolledBack (err : String)
  | fatal (err : String)
deriving DecidableEq, Repr

/-- Models `cmd_on` (src/tun.rs lines 243-353), after the privilege gate: device
check, load + snapshot, mutate, save, rule application with rollback on
apply failure, state write, best-effort restart. -/
def cmd_on (args : TunApplyArgs) (s : Sys) : Sys × OnResult :=
  if !s.devTun then (s, .fatal "未找到 /dev/net/tun，请先修复系统环境")
  else
    let loaded := load_or_init_config s.configFile
    let original_root := loaded.2
    let root := tunOnMutateConfig original_root
    let auto_redirect := (bool_field (key_value root "tun") "auto-redirect").getD false
    let redir_port := (u16_field (some root) "redir-port").getD DEFAULT_REDIR_PORT
    let s1 : Sys := { s with configFile := some root }
    if auto_redirect then
      match select_rule_backend s1.fw with
      | .error e => (s1, .fatal e)
      | .ok preferred =>
        match apply_dataplane_rules preferred redir_port s1.fw with
        | (fw1, .error e) =>
          ({ s1 with fw := fw1, configFile := some original_root }, .rolledBack e)
        | (fw1, .ok backend) =>
          let st : TunState :=
            { enabled := true, service_name := args.name, user_service := args.user
              backend := backend, redir_port := redir_port, rules_applied := true
              updated_at := s1.nowTime }
          let s2 : Sys := { s1 with fw := fw1, stateFile := some st }
          (s2, .okR backend redir_port true (if args.no_restart then none else some s2.restartOk))
    else
      let fw1 := (cleanup_dataplane_rules_all s1.fw).1
      let st : TunState :=
        { enabled := true, service_name := args.name, user_service := args.user
          backend := .noneB, redir_port := redir_port, rules_applied := false
          updated_at := s1.nowTime }
      let s2 : Sys := { s1 with fw := fw1, stateFile := some st }
      (s2, .okR .noneB redir_port false (if args.no_restart then none else some s2.restartOk))

/-- Outcome of `cmd_off`. -/
inductive OffResult where
  | okR (redirPort : Nat) (restartOk : Option Bool)
  | fatal (err : String)
deriving DecidableEq, Repr

/-- The cleanup dispatch of `cmd_off` (src/tun.rs lines 370-378). -/
def off_cleanup (prev : Option TunState) (fw : FwWorld) : FwWorld × Option String :=
  match prev with
  | some st =>
    if st.rules_applied then cleanup_dataplane_rules st.backend fw
    else (fw, none)
  | none => cleanup_dataplane_rules_all fw

/-- Models `cmd_off` (src/tun.rs lines 355-419), after the privilege gate: load,
read prior state, force `tun.enable=false`, save, cleanup dispatch (hard
error), state write, best-effort restart. -/
def cmd_off (args : TunApplyArgs) (s : Sys) : Sys × OffResult :=
  let loaded := load_or_init_config s.configFile
  let previous_state := s.stateFile
  let redir_port := (u16_field (some loaded.2) "redir-port").getD DEFAULT_REDIR_PORT
  let root := set_bool_field loaded.2 ["tun"] "enable" false
  let s1 : Sys := { s with configFile := some root }
  let cleaned := off_cleanup previous_state s1.fw
  let s2 : Sys := { s1 with fw := cleaned.1 }
  match cleaned.2 with
  | some e => (s2, .fatal ("清理数据面规则失败: " ++ e))
  | none =>
    let st : TunState :=
      { enabled := false, service_name := args.name, user_service := args.user
        backend := .noneB, redir_port := redir_port, rules_applied := false
        updated_at := s2.nowTime }
    let s3 : Sys := { s2 with stateFile := some st }
    (s3, .okR redir_port (if args.no_restart then none else some s3.restartOk))

/-- What `cmd_status` reports (the JSON payload fields that derive from
state rather than formatting, src/tun.rs lines 436-520). -/
structure StatusReport where
  tun_enable : Bool
  auto_redirect : Bool
  redir_port : Nat
  device_ok : Bool
  backend_installed : Bool
  active_backend : RuleBackend
  rules_active : Bool
  service_active : Bool
  last_state : Option TunState
  actual_ok : Bool
deriving Repr

/-- Models `cmd_status` (src/tun.rs lines 421-565): read-only recomputation.  An
absent config file is shown as an empty document; `actual_ok` is derived
from the config and live probes. -/
def cmd_status (_args : TunStatusArgs) (s : Sys) : StatusReport :=
  let root :=
    match s.configFile with
    | some v => load_existing_config v
    | none => .mapV []
  let tun := key_value root "tun"
  let tun_enable := (bool_field tun "enable").getD false
  let auto_redirect := (bool_field tun "auto-redirect").getD false
  let redir_port := (u16_field (some root) "redir-port").getD DEFAULT_REDIR_PORT
  let device_ok := s.devTun
  let backend_installed := s.fw.nftBin || s.fw.iptBin
  let active_backend := detect_active_rule_backend s.fw
  let rules_active := active_backend != .noneB
  let redirect_ready := if auto_redirect then rules_active else true
  let service_active := s.svcActive.getD false
  { tun_enable := tun_enable
    auto_redirect := auto_redirect
    redir_port := redir_port
    device_ok := device_ok
    backend_installed := backend_installed
    active_backend := active_backend
    rules_active := rules_active
    service_active := service_active
    last_state := s.stateFile
    actual_ok := tun_enable && device_ok && redirect_ready && service_active }

/-- Severity of a diagnostic check (src/tun.rs `CheckLevel`). -/
inductive CheckLevel where
  | pass
  | warn
  | fail
deriving DecidableEq, Repr

/-- One diagnostic record (src/tun.rs `CheckItem`). -/
structure CheckItem where
  name : String
  level : CheckLevel
  message : String
  suggestion : Option String
deriving DecidableEq, Repr

/-- Models `summarize_checks` (src/tun.rs lines 1678-1698): pass/warn/fail counts. -/
def summarize_checks (checks : List CheckItem) : Nat × Nat × Nat :=
  checks.foldl
    (fun acc item =>
      match item.level with
      | .pass => (acc.1 + 1, acc.2.1, acc.2.2)
      | .warn => (acc.1, acc.2.1 + 1, acc.2.2)
      | .fail => (acc.1, acc.2.1, acc.2.2 + 1))
    (0, 0, 0)

/-- The verdict layer of `cmd_doctor` (src/tun.rs lines 195-240): in JSON
mode the command prints an object whose `ok` field is `fail_count == 0` and
returns success; in text mode it bails exactly when `fail_count > 0`.  The
returned value is `none` for a plain text-mode success and `some ok` for
the JSON `ok` field. -/
def cmd_doctor_verdict (checks : List CheckItem) (jsonMode : Bool) : Except String (Option Bool) :=
  let counts := summarize_checks checks
  let fail_count := counts.2.2
  if jsonMode then .ok (some (fail_count == 0))
  else if fail_count > 0 then .error "tun 诊断未通过，请先处理 FAIL 项"
  else .ok none

/-- A hexadecimal digit's value. -/
def hexVal (c : Char) : Option Nat :=
  if '0' ≤ c ∧ c ≤ '9' then some (c.toNat - 48)
  else if 'a' ≤ c ∧ c ≤ 'f' then some (c.toNat - 87)
  else if 'A' ≤ c ∧ c ≤ 'F' then some (c.toNat - 55)
  else none

/-- Core of `u64::from_str_radix(_, 16)`: nonempty hex digits. -/
def parseHexCore (l : List Char) : Option Nat :=
  if l = [] then none
  else l.foldlM (fun acc c => (hexVal c).map (fun d => acc * 16 + d)) 0

/-- Models `u64::from_str_radix(_, 16)` with overflow rejected (a leading plus
sign is accepted). -/
def parseHexU64 (s : String) : Option Nat :=
  let core :=
    match s.data with
    | '+' :: rest => parseHexCore rest
    | l => parseHexCore l
  core.bind fun n => if n < 2 ^ 64 then some n else none

/-- Models `read_cap_eff` (src/tun.rs lines 1226-1234) applied to the text of
`/proc/self/status` (`none` = the read itself failed): the first line with
the `CapEff:` marker wins, and its hex parse error propagates. -/
def read_cap_eff (content : Option String) : Except String Nat :=
  match content with
  | none => .error "读取 /proc/self/status 失败"
  | some text =>
    match (rustLines text).find? (fun l => "CapEff:".data.isPrefixOf l) with
    | some line =>
      match parseHexU64 (String.mk (trimChars (line.drop 7))) with
      | some n => .ok n
      | none => .error "解析 CapEff 失败"
    | none => .error "未找到 CapEff 字段"

/-- Models `has_capability_bit` (src/tun.rs lines 1373-1376). -/
def has_capability_bit (content : Option String) (bit : Nat) : Except String Bool :=
  (read_cap_eff content).map (fun mask => mask &&& (1 <<< bit) != 0)

/-- Models `is_root_user` (src/tun.rs lines 1378-1388): the trimmed stdout of
`id -u` compared to `"0"` (`none` = the command failed or exited non-zero). -/
def is_root_user (idOut : Option String) : Except String Bool :=
  match idOut with
  | none => .error "执行 id -u 失败"
  | some out => .ok (String.mk (trimChars out.data) = "0")

/-- The insufficient-privilege message of `ensure_tun_privileges`. -/
def privErrMsg : String :=
  "当前权限不足：需要 root 或 CAP_NET_ADMIN + CAP_NET_RAW。请使用 sudo 执行，例如 `sudo clash tun on`"

/-- Models `ensure_tun_privileges` (src/tun.rs lines 1236-1246): all three probes
degrade to `false` on error; grant for root or for both capability bits. -/
def ensure_tun_privileges (idOut : Option String) (statusContent : Option String) : Option String :=
  let is_root := ((is_root_user idOut).toOption).getD false
  let has_admin := ((has_capability_bit statusContent CAP_NET_ADMIN_BIT).toOption).getD false
  let has_raw := ((has_capability_bit statusContent CAP_NET_RAW_BIT).toOption).getD false
  if is_root || (has_admin && has_raw) then none
  else some privErrMsg

/-- Root-level lookup after the defensive root coercion (agrees with
`key_value` on every input). -/
def rootGet (root : Yaml) (key : String) : Option Yaml :=
  mapGet (rootEntries root) key

/-- The nested mapping a path segment denotes, `[]` when absent or not a
mapping — exactly the view `ensure_mapping_path` starts from. -/
def mapping_at (root : Yaml) (key : String) : List (String × Yaml) :=
  rootEntries ((rootGet root key).getD .nullV)

/-- A world with no firewall tools, no managed rules, and all external
commands succeeding — the base for concrete scenarios. -/
def fwEmpty : FwWorld :=
  { nftBin := false, iptBin := false, ip6tBin := false, nftTable := false
    v4 := ⟨false, false, false⟩, v6 := ⟨false, false, false⟩
    nftDeleteOk := true, nftScriptOk := true, iptCmdOk := true, ip6tCmdOk := true }

/-- A base system state: empty config file present, no recorded state,
TUN device present, service running. -/
def sysBase : Sys :=
  { configFile := some (.mapV []), stateFile := none, fw := fwEmpty
    devTun := true, restartOk := true, svcActive := some true, nowTime := 0 }

/-- Concrete apply/off arguments for scenarios. -/
def argsBase : TunApplyArgs := { name := "clash-mihomo", user := false, no_restart := true }

/-- A recorded state from a successful nft `on`. -/
def stNft : TunState :=
  { enabled := true, service_name := "clash-mihomo", user_service := false
    backend := .nft, redir_port := 7892, rules_applied := true, updated_at := 100 }

theorem key_value_eq_rootGet (root : Yaml) (k : String) :
    key_value root k = rootGet root k := by
  cases root <;> rfl

theorem mapGet_nil (k : String) : mapGet [] k = none := rfl

theorem mapGet_cons (p : String × Yaml) (t : List (String × Yaml)) (k : String) :
    mapGet (p :: t) k = if p.1 = k then some p.2 else mapGet t k := by
  unfold mapGet
  rw [List.find?]
  by_cases h : p.1 = k <;> simp [h]

theorem mapContains_cons (p : String × Yaml) (t : List (String × Yaml)) (k : String) :
    mapContains (p :: t) k = (decide (p.1 = k) || mapContains t k) := by
  simp [mapContains]

theorem mapContains_eq_isSome (m : List (String × Yaml)) (k : String) :
    mapContains m k = (mapGet m k).isSome := by
  induction m with
  | nil => rfl
  | cons p t ih =>
    rw [mapContains_cons, mapGet_cons, ih]
    by_cases h : p.1 = k <;> simp [h]

theorem mapGet_replaceList (m : List (String × Yaml)) (k : String) (v : Yaml) (q : String) :
    mapGet (m.map fun p => if p.1 = k then (p.1, v) else p) q =
      if q = k then (mapGet m k).map (fun _ => v) else mapGet m q := by
  induction m with
  | nil => by_cases h : q = k <;> simp [h, mapGet_nil]
  | cons p t ih =>
    by_cases hp : p.1 = k
    · by_cases hq : q = k
      · simp [List.map_cons, mapGet_cons, hp, hq]
      · have hq' : ¬ k = q := fun hh => hq hh.symm
        simp [List.map_cons, mapGet_cons, hp, hq, hq', ih]
    · by_cases hq : q = k
      · subst hq
        simp [List.map_cons, mapGet_cons, hp, ih]
      · simp only [List.map_cons, mapGet_cons, if_neg hp, ih, if_neg hq]

theorem mapGet_append (m₁ m₂ : List (String × Yaml)) (q : String) :
    mapGet (m₁ ++ m₂) q = ((mapGet m₁ q).or (mapGet m₂ q)) := by
  induction m₁ with
  | nil => simp [mapGet_nil]
  | cons p t ih =>
    rw [List.cons_append, mapGet_cons, mapGet_cons]
    by_cases hp : p.1 = q <;> simp [hp, ih]

theorem mapGet_mapInsert (m : List (String × Yaml)) (k : String) (v : Yaml) (q : String) :
    mapGet (mapInsert m k v) q = if q = k then some v else mapGet m q := by
  unfold mapInsert
  by_cases hc : mapContains m k
  · rw [if_pos hc, mapGet_replaceList]
    by_cases hq : q = k
    · subst hq
      rw [mapContains_eq_isSome] at hc
      obtain ⟨x, hx⟩ := Option.isSome_iff_exists.mp hc
      simp [hx]
    · simp [hq]
  · rw [if_neg hc, mapGet_append]
    by_cases hq : q = k
    · subst hq
      rw [mapContains_eq_isSome] at hc
      have hnone : mapGet m q = none := by
        cases hmk : mapGet m q with
        | none => rfl
        | some x => rw [hmk] at hc; simp at hc
      simp [hnone, mapGet_cons]
    · have : ¬ k = q := fun hh => hq hh.symm
      simp [hq, this, mapGet_cons, mapGet_nil]

theorem mapGet_defaultInsert (m : List (String × Yaml)) (k : String) (v : Yaml) (q : String) :
    mapGet (if mapContains m k then m else mapInsert m k v) q =
      if q = k then some ((mapGet m k).getD v) else mapGet m q := by
  by_cases hc : mapContains m k
  · rw [if_pos hc]
    by_cases hq : q = k
    · subst hq
      rw [mapContains_eq_isSome] at hc
      obtain ⟨x, hx⟩ := Option.isSome_iff_exists.mp hc
      simp [hx]
    · simp [hq]
  · rw [if_neg hc, mapGet_mapInsert]
    by_cases hq : q = k
    · subst hq
      rw [mapContains_eq_isSome] at hc
      have hnone : mapGet m q = none := by
        cases hmk : mapGet m q with
        | none => rfl
        | some x => rw [hmk] at hc; simp at hc
      simp [hnone]
    · simp [hq]

theorem updateAtPath_single (root : Yaml) (p : String)
    (f : List (String × Yaml) → List (String × Yaml)) :
    updateAtPath root [p] f =
      .mapV (mapInsert (rootEntries root) p (.mapV (f (mapping_at root p)))) := by
  show Yaml.mapV (mapInsert (rootEntries root) p
      (updateAtPath ((mapGet (rootEntries root) p).getD (.mapV [])) [] f)) = _
  congr 2
  show Yaml.mapV (f (rootEntries ((mapGet (rootEntries root) p).getD (.mapV [])))) = _
  congr 1
  unfold mapping_at rootGet
  cases h : mapGet (rootEntries root) p with
  | none => simp [h, rootEntries]
  | some c => cases c <;> simp [h, rootEntries]

theorem rootGet_update_single (root : Yaml) (p : String)
    (f : List (String × Yaml) → List (String × Yaml)) (q : String) :
    rootGet (updateAtPath root [p] f) q =
      if q = p then some (.mapV (f (mapping_at root p))) else rootGet root q := by
  rw [updateAtPath_single]
  show mapGet (mapInsert (rootEntries root) p (.mapV (f (mapping_at root p)))) q = _
  rw [mapGet_mapInsert]
  rfl

theorem rootGet_update_nilpath (root : Yaml)
    (f : List (String × Yaml) → List (String × Yaml)) (q : String) :
    rootGet (updateAtPath root [] f) q = mapGet (f (rootEntries root)) q := rfl

theorem mapping_at_congr {a b : Yaml} (k : String) (h : rootGet a k = rootGet b k) :
    mapping_at a k = mapping_at b k := by
  unfold mapping_at
  rw [h]


theorem rootEntries_mapV (m : List (String × Yaml)) : rootEntries (.mapV m) = m := rfl

theorem rootGet_mapV (m : List (String × Yaml)) (q : String) :
    rootGet (.mapV m) q = mapGet m q := rfl

theorem mapGet_rootEntries (root : Yaml) (q : String) :
    mapGet (rootEntries root) q = rootGet root q := rfl

theorem bool_field_some (v : Yaml) (k : String) :
    bool_field (some v) k = (rootGet v k).bind (fun w =>
      match w with
      | .boolV b => some b
      | _ => none) := by
  cases v <;> rfl

@[simp] theorem strNe0 : (("auto-detect-interface" : String) = "auto-redirect") = False := eq_false (by decide)

@[simp] theorem strNe1 : (("auto-detect-interface" : String) = "auto-route") = False := eq_false (by decide)

@[simp] theorem strNe2 : (("auto-detect-interface" : String) = "enable") = False := eq_false (by decide)

@[simp] theorem strNe3 : (("auto-detect-interface" : String) = "stack") = False := eq_false (by decide)

@[simp] theorem strNe4 : (("auto-detect-interface" : String) = "strict-route") = False := eq_false (by decide)

@[simp] theorem strNe5 : (("auto-redirect" : String) = "auto-detect-interface") = False := eq_false (by decide)

@[simp] theorem strNe6 : (("auto-redirect" : String) = "auto-route") = False := eq_false (by decide)

@[simp] theorem strNe7 : (("auto-redirect" : String) = "enable") = False := eq_false (by decide)

@[simp] theorem strNe8 : (("auto-redirect" : String) = "stack") = False := eq_false (by decide)

@[simp] theorem strNe9 : (("auto-redirect" : String) = "strict-route") = False := eq_false (by decide)

@[simp] theorem strNe10 : (("auto-route" : String) = "auto-detect-interface") = False := eq_false (by decide)

@[simp] theorem strNe11 : (("auto-route" : String) = "auto-redirect") = False := eq_false (by decide)

@[simp] theorem strNe12 : (("auto-route" : String) = "enable") = False := eq_false (by decide)

@[simp] theorem strNe13 : (("auto-route" : String) = "stack") = False := eq_false (by decide)

@[simp] theorem strNe14 : (("auto-route" : String) = "strict-route") = False := eq_false (by decide)

@[simp] theorem strNe15 : (("dns" : String) = "ipv6") = False := eq_false (by decide)

@[simp] theorem strNe16 : (("dns" : String) = "redir-port") = False := eq_false (by decide)

@[simp] theorem strNe17 : (("dns" : String) = "tun") = False := eq_false (by decide)

@[simp] theorem strNe18 : (("enable" : String) = "auto-detect-interface") = False := eq_false (by decide)

@[simp] theorem strNe19 : (("enable" : String) = "auto-redirect") = False := eq_false (by decide)

@[simp] theorem strNe20 : (("enable" : String) = "auto-route") = False := eq_false (by decide)

@[simp] theorem strNe21 : (("enable" : String) = "enhanced-mode") = False := eq_false (by decide)

@[simp] theorem strNe22 : (("enable" : String) = "ipv6") = False := eq_false (by decide)

@[simp] theorem strNe23 : (("enable" : String) = "stack") = False := eq_false (by decide)

@[simp] theorem strNe24 : (("enable" : String) = "strict-route") = False := eq_false (by decide)

@[simp] theorem strNe25 : (("enhanced-mode" : String) = "enable") = False := eq_false (by decide)

@[simp] theorem strNe26 : (("enhanced-mode" : String) = "ipv6") = False := eq_false (by decide)

@[simp] theorem strNe27 : (("ipv6" : String) = "dns") = False := eq_false (by decide)

@[simp] theorem strNe28 : (("ipv6" : String) = "enable") = False := eq_false (by decide)

@[simp] theorem strNe29 : (("ipv6" : String) = "enhanced-mode") = False := eq_false (by decide)

@[simp] theorem strNe30 : (("ipv6" : String) = "redir-port") = False := eq_false (by decide)

@[simp] theorem strNe31 : (("ipv6" : String) = "tun") = False := eq_false (by decide)

@[simp] theorem strNe32 : (("redir-port" : String) = "dns") = False := eq_false (by decide)

@[simp] theorem strNe33 : (("redir-port" : String) = "ipv6") = False := eq_false (by decide)

@[simp] theorem strNe34 : (("redir-port" : String) = "tun") = False := eq_false (by decide)

@[simp] theorem strNe35 : (("stack" : String) = "auto-detect-interface") = False := eq_false (by decide)

@[simp] theorem strNe36 : (("stack" : String) = "auto-redirect") = False := eq_false (by decide)

@[simp] theorem strNe37 : (("stack" : String) = "auto-route") = False := eq_false (by decide)

@[simp] theorem strNe38 : (("stack" : String) = "enable") = False := eq_false (by decide)

@[simp] theorem strNe39 : (("stack" : String) = "strict-route") = False := eq_false (by decide)

@[simp] theorem strNe40 : (("strict-route" : String) = "auto-detect-interface") = False := eq_false (by decide)

@[simp] theorem strNe41 : (("strict-route" : String) = "auto-redirect") = False := eq_false (by decide)

@[simp] theorem strNe42 : (("strict-route" : String) = "auto-route") = False := eq_false (by decide)

@[simp] theorem strNe43 : (("strict-route" : String) = "enable") = False := eq_false (by decide)

@[simp] theorem strNe44 : (("strict-route" : String) = "stack") = False := eq_false (by decide)

@[simp] theorem strNe45 : (("tun" : String) = "dns") = False := eq_false (by decide)

@[simp] theorem strNe46 : (("tun" : String) = "ipv6") = False := eq_false (by decide)

@[simp] theorem strNe47 : (("tun" : String) = "redir-port") = False := eq_false (by decide)

/-- C5: the `on` config-mutation policy — `tun.enable`, root `ipv6` and
`dns.ipv6` are force-set (to true / false / false) regardless of prior
values, while `tun.auto-route`, `tun.auto-detect-interface`,
`tun.auto-redirect`, `tun.strict-route`, `tun.stack`, `dns.enable`,
`dns.enhanced-mode` and `redir-port` keep any pre-existing value (in
particular a pre-existing `false` for `tun.auto-route` is never
overwritten) and receive their documented defaults exactly when absent. -/
theorem cmd_on_config_mutation_policy (root : Yaml) :
    bool_field (key_value (tunOnMutateConfig root) "tun") "enable" = some true ∧
    bool_field (some (tunOnMutateConfig root)) "ipv6" = some false ∧
    bool_field (key_value (tunOnMutateConfig root) "dns") "ipv6" = some false ∧
    mapGet (mapping_at (tunOnMutateConfig root) "tun") "auto-route" =
      some ((mapGet (mapping_at root "tun") "auto-route").getD (.boolV true)) ∧
    mapGet (mapping_at (tunOnMutateConfig root) "tun") "auto-detect-interface" =
      some ((mapGet (mapping_at root "tun") "auto-detect-interface").getD (.boolV true)) ∧
    mapGet (mapping_at (tunOnMutateConfig root) "tun") "auto-redirect" =
      some ((mapGet (mapping_at root "tun") "auto-redirect").getD (.boolV true)) ∧
    mapGet (mapping_at (tunOnMutateConfig root) "tun") "strict-route" =
      some ((mapGet (mapping_at root "tun") "strict-route").getD (.boolV false)) ∧
    mapGet (mapping_at (tunOnMutateConfig root) "tun") "stack" =
      some ((mapGet (mapping_at root "tun") "stack").getD (.strV "mixed")) ∧
    mapGet (mapping_at (tunOnMutateConfig root) "dns") "enable" =
      some ((mapGet (mapping_at root "dns") "enable").getD (.boolV true)) ∧
    mapGet (mapping_at (tunOnMutateConfig root) "dns") "enhanced-mode" =
      some ((mapGet (mapping_at root "dns") "enhanced-mode").getD (.strV "fake-ip")) ∧
    rootGet (tunOnMutateConfig root) "redir-port" =
      some ((rootGet root "redir-port").getD (.intV (DEFAULT_REDIR_PORT : Nat))) := by
  have hipv6 : rootGet (tunOnMutateConfig root) "ipv6" = some (.boolV false) := by
    simp [tunOnMutateConfig, set_bool_field, set_default_bool_field, set_default_string_field,
      set_default_u16_field, rootGet_update_single, rootGet_update_nilpath,
      mapGet_mapInsert, mapGet_defaultInsert, mapGet_rootEntries,
      mapping_at, rootEntries_mapV, rootGet_mapV]
  refine ⟨?_, ?_, ?_, ?_, ?_, ?_, ?_, ?_, ?_, ?_, ?_⟩
  · simp [tunOnMutateConfig, set_bool_field, set_default_bool_field, set_default_string_field,
      set_default_u16_field, key_value_eq_rootGet, rootGet_update_single, rootGet_update_nilpath,
      mapGet_mapInsert, mapGet_defaultInsert, bool_field_some, mapGet_rootEntries,
      mapping_at, rootEntries_mapV, rootGet_mapV]
  · rw [bool_field_some, hipv6]
    rfl
  · simp [tunOnMutateConfig, set_bool_field, set_default_bool_field, set_default_string_field,
      set_default_u16_field, key_value_eq_rootGet, rootGet_update_single, rootGet_update_nilpath,
      mapGet_mapInsert, mapGet_defaultInsert, bool_field_some, mapGet_rootEntries,
      mapping_at, rootEntries_mapV, rootGet_mapV]
  · simp [tunOnMutateConfig, set_bool_field, set_default_bool_field, set_default_string_field,
      set_default_u16_field, rootGet_update_single, rootGet_update_nilpath,
      mapGet_mapInsert, mapGet_defaultInsert, mapGet_rootEntries,
      mapping_at, rootEntries_mapV, rootGet_mapV]
  · simp [tunOnMutateConfig, set_bool_field, set_default_bool_field, set_default_string_field,
      set_default_u16_field, rootGet_update_single, rootGet_update_nilpath,
      mapGet_mapInsert, mapGet_defaultInsert, mapGet_rootEntries,
      mapping_at, rootEntries_mapV, rootGet_mapV]
  · simp [tunOnMutateConfig, set_bool_field, set_default_bool_field, set_default_string_field,
      set_default_u16_field, rootGet_update_single, rootGet_update_nilpath,
      mapGet_mapInsert, mapGet_defaultInsert, mapGet_rootEntries,
      mapping_at, rootEntries_mapV, rootGet_mapV]
  · simp [tunOnMutateConfig, set_bool_field, set_default_bool_field, set_default_string_field,
      set_default_u16_field, rootGet_update_single, rootGet_update_nilpath,
      mapGet_mapInsert, mapGet_defaultInsert, mapGet_rootEntries,
      mapping_at, rootEntries_mapV, rootGet_mapV]
  · simp [tunOnMutateConfig, set_bool_field, set_default_bool_field, set_default_string_field,
      set_default_u16_field, rootGet_update_single, rootGet_update_nilpath,
      mapGet_mapInsert, mapGet_defaultInsert, mapGet_rootEntries,
      mapping_at, rootEntries_mapV, rootGet_mapV]
  · simp [tunOnMutateConfig, set_bool_field, set_default_bool_field, set_default_string_field,
      set_default_u16_field, rootGet_update_single, rootGet_update_nilpath,
      mapGet_mapInsert, mapGet_defaultInsert, mapGet_rootEntries,
      mapping_at, rootEntries_mapV, rootGet_mapV]
  · simp [tunOnMutateConfig, set_bool_field, set_default_bool_field, set_default_string_field,
      set_default_u16_field, rootGet_update_single, rootGet_update_nilpath,
      mapGet_mapInsert, mapGet_defaultInsert, mapGet_rootEntries,
      mapping_at, rootEntries_mapV, rootGet_mapV]
  · simp [tunOnMutateConfig, set_bool_field, set_default_bool_field, set_default_string_field,
      set_default_u16_field, rootGet_update_single, rootGet_update_nilpath,
      mapGet_mapInsert, mapGet_defaultInsert, mapGet_rootEntries,
      mapping_at, rootEntries_mapV, rootGet_mapV, DEFAULT_REDIR_PORT]

/-- C6: `status` derives `actual_ok` as the conjunction of the
config-derived `tun.enable`, device presence, rule liveness when
`auto-redirect` demands it, and the live service query; the persisted
`TunState` is reported verbatim but replacing it never changes anything
except the reported `last_state`. -/
theorem cmd_status_actual_ok_derivation (args : TunStatusArgs) (s : Sys) :
    ((cmd_status args s).actual_ok =
      (let root :=
        match s.configFile with
        | some v => load_existing_config v
        | none => Yaml.mapV []
      (bool_field (key_value root "tun") "enable").getD false
        && s.devTun
        && (if (bool_field (key_value root "tun") "auto-redirect").getD false
            then detect_active_rule_backend s.fw != RuleBackend.noneB
            else true)
        && s.svcActive.getD false)) ∧
    ((cmd_status args s).last_state = s.stateFile) ∧
    (∀ ls : Option TunState,
      cmd_status args { s with stateFile := ls } =
        { cmd_status args s with last_state := ls }) :=
  ⟨rfl, rfl, fun _ => rfl⟩

/-- C4: `apply_dataplane_rules` starting from the nft backend falls back to
iptables exactly when the nft application fails and the iptables binary is
present, reporting iptables as the effective backend on success, and
returns an error only when the nft attempt failed and the iptables attempt
failed or was impossible. -/
theorem apply_dataplane_nft_fallback (port : Nat) (w : FwWorld) :
    (∀ w1, apply_nft_rules w port = (w1, none) →
      apply_dataplane_rules .nft port w = (w1, Except.ok .nft)) ∧
    (∀ w1 e w2, apply_nft_rules w port = (w1, some e) → w1.iptBin = true →
      apply_iptables_rules w1 port = (w2, none) →
      apply_dataplane_rules .nft port w = (w2, Except.ok .iptables)) ∧
    (∀ w2 e2, apply_dataplane_rules .nft port w = (w2, Except.error e2) →
      ∃ w1 e, apply_nft_rules w port = (w1, some e) ∧
        (w1.iptBin = false ∨ ∃ w3 e3, apply_iptables_rules w1 port = (w3, some e3))) := by
  refine ⟨?_, ?_, ?_⟩
  · intro w1 h
    simp [apply_dataplane_rules, h]
  · intro w1 e w2 h hbin happ
    simp [apply_dataplane_rules, h, hbin, happ]
  · intro w2 e2 h
    rcases hn : apply_nft_rules w port with ⟨w1, en⟩
    cases en with
    | none => simp [apply_dataplane_rules, hn] at h
    | some e =>
      refine ⟨w1, e, rfl, ?_⟩
      cases hbin : w1.iptBin with
      | false => exact Or.inl rfl
      | true =>
        rcases hwp : apply_iptables_rules w1 port with ⟨w3, ei⟩
        cases ei with
        | none => simp [apply_dataplane_rules, hn, hbin, hwp] at h
        | some e3 => exact Or.inr ⟨w3, e3, rfl⟩

/-- Witness for the C4 theorem: with nft installed and its script load
succeeding, the nft path applies and reports nft. -/
theorem apply_dataplane_nft_fallback_witness :
    apply_dataplane_rules .nft 7892 { fwEmpty with nftBin := true } =
      ({ fwEmpty with nftBin := true, nftTable := true }, Except.ok .nft) :=
  (apply_dataplane_nft_fallback 7892 { fwEmpty with nftBin := true }).1
    { fwEmpty with nftBin := true, nftTable := true } (by decide)

theorem setChains_chainsOf (w : FwWorld) (b : IptBinary) :
    setChains w b (chainsOf w b) = w := by
  cases b <;> rfl

theorem setChains_setChains (w : FwWorld) (b : IptBinary) (c c' : IptChains) :
    setChains (setChains w b c) b c' = setChains w b c' := by
  cases b <;> rfl

theorem binExists_setChains (w : FwWorld) (b b' : IptBinary) (c : IptChains) :
    binExists (setChains w b c) b' = binExists w b' := by
  cases b <;> cases b' <;> rfl

theorem binCmdOk_setChains (w : FwWorld) (b b' : IptBinary) (c : IptChains) :
    binCmdOk (setChains w b c) b' = binCmdOk w b' := by
  cases b <;> cases b' <;> rfl

theorem chainsOf_setChains_self (w : FwWorld) (b : IptBinary) (c : IptChains) :
    chainsOf (setChains w b c) b = c := by
  cases b <;> rfl

theorem chainsOf_setChains_ne (w : FwWorld) (b b' : IptBinary) (c : IptChains)
    (h : ¬ b' = b) : chainsOf (setChains w b c) b' = chainsOf w b' := by
  cases b <;> cases b' <;> first | rfl | exact absurd rfl h

theorem cleanup_jump_loop_ok (p ok p' : Bool) (h : cleanup_jump_loop 8 p ok = (p', none)) :
    p' = false := by
  revert h
  revert p ok p'
  decide

theorem cleanup_nft_rules_inactive (w : FwWorld) (h : nft_rules_active w = false) :
    cleanup_nft_rules w = (w, none) := by
  unfold cleanup_nft_rules
  cases hb : w.nftBin with
  | false => simp [hb]
  | true => simp [hb, h]

theorem cleanup_nft_rules_ok_shape (w w' : FwWorld) (h : cleanup_nft_rules w = (w', none)) :
    (nft_rules_active w = false ∧ w' = w) ∨
    (nft_rules_active w = true ∧ w' = { w with nftTable := false }) := by
  unfold cleanup_nft_rules at h
  cases hb : w.nftBin with
  | false =>
    rw [hb] at h
    simp at h
    exact Or.inl ⟨by simp [nft_rules_active, hb], h.symm⟩
  | true =>
    rw [hb] at h
    cases hact : nft_rules_active w with
    | false =>
      simp [hact] at h
      exact Or.inl ⟨rfl, h.symm⟩
    | true =>
      cases hdel : w.nftDeleteOk with
      | false => simp [hact, hdel] at h
      | true =>
        simp [hact, hdel] at h
        right
        refine ⟨rfl, ?_⟩
        rw [← h]

theorem cleanup_iptables_binary_shape (w : FwWorld) (b : IptBinary) (opt : Bool) (w' : FwWorld)
    (h : cleanup_iptables_binary w b opt = (w', none)) :
    (binExists w b = false ∧ opt = true ∧ w' = w) ∨
    (binExists w b = true ∧ w' = setChains w b ⟨false, false, false⟩) := by
  unfold cleanup_iptables_binary at h
  cases hbin : binExists w b with
  | false =>
    rw [hbin] at h
    cases opt with
    | false => simp at h
    | true =>
      simp at h
      exact Or.inl ⟨rfl, rfl, h.symm⟩
  | true =>
    rw [hbin] at h
    simp only [Bool.not_true, Bool.false_eq_true, if_false] at h
    rcases h1 : cleanup_jump_loop 8 (chainsOf w b).pre (binCmdOk w b) with ⟨pre', e1⟩
    rw [h1] at h
    cases e1 with
    | some e => simp at h
    | none =>
      rcases h2 : cleanup_jump_loop 8 (chainsOf w b).outOwner (binCmdOk w b) with ⟨oo', e2⟩
      rw [h2] at h
      cases e2 with
      | some e => simp at h
      | none =>
        rcases h3 : cleanup_jump_loop 8 (chainsOf w b).outPlain (binCmdOk w b) with ⟨op', e3⟩
        rw [h3] at h
        cases e3 with
        | some e => simp at h
        | none =>
          simp at h
          have hp := cleanup_jump_loop_ok _ _ _ h1
          have ho := cleanup_jump_loop_ok _ _ _ h2
          have hop := cleanup_jump_loop_ok _ _ _ h3
          subst hp ho hop
          exact Or.inr ⟨rfl, h.symm⟩

theorem cleanup_iptables_binary_noop (w : FwWorld) (b : IptBinary) (opt : Bool)
    (hch : chainsOf w b = ⟨false, false, false⟩) (hbin : binExists w b = true) :
    cleanup_iptables_binary w b opt = (w, none) := by
  unfold cleanup_iptables_binary
  rw [hbin]
  simp only [Bool.not_true, Bool.false_eq_true, if_false, hch]
  show (setChains w b ⟨false, false, false⟩, none) = (w, none)
  rw [← hch, setChains_chainsOf]

theorem cleanup_iptables_binary_absent (w : FwWorld) (b : IptBinary)
    (hbin : binExists w b = false) :
    cleanup_iptables_binary w b true = (w, none) := by
  unfold cleanup_iptables_binary
  rw [hbin]
  rfl

theorem cleanup_iptables_rules_ok (w w' : FwWorld) (h : cleanup_iptables_rules w = (w', none)) :
    cleanup_iptables_rules w' = (w', none) := by
  unfold cleanup_iptables_rules at h ⊢
  rcases h4 : cleanup_iptables_binary w .v4 false with ⟨wa, e4⟩
  rw [h4] at h
  cases e4 with
  | some e => simp at h
  | none =>
    rcases cleanup_iptables_binary_shape w .v4 false wa h4 with ⟨_, hopt, _⟩ | ⟨hbin4, hwa⟩
    · cases hopt
    · rcases cleanup_iptables_binary_shape wa .v6 true w' h with ⟨hbin6, _, hw'⟩ | ⟨hbin6, hw'⟩
      · have hch4 : chainsOf w' .v4 = ⟨false, false, false⟩ := by
          rw [hw', hwa, chainsOf_setChains_self]
        have hbin4' : binExists w' .v4 = true := by
          rw [hw', hwa, binExists_setChains]; exact hbin4
        rw [cleanup_iptables_binary_noop w' .v4 false hch4 hbin4']
        have hbin6' : binExists w' .v6 = false := by
          rw [hw']; exact hbin6
        exact cleanup_iptables_binary_absent w' .v6 hbin6'
      · have hch4 : chainsOf w' .v4 = ⟨false, false, false⟩ := by
          rw [hw', chainsOf_setChains_ne _ _ _ _ (by decide), hwa, chainsOf_setChains_self]
        have hbin4' : binExists w' .v4 = true := by
          rw [hw', binExists_setChains, hwa, binExists_setChains]; exact hbin4
        rw [cleanup_iptables_binary_noop w' .v4 false hch4 hbin4']
        have hch6 : chainsOf w' .v6 = ⟨false, false, false⟩ := by
          rw [hw', chainsOf_setChains_self]
        have hbin6' : binExists w' .v6 = true := by
          rw [hw', binExists_setChains]; exact hbin6
        exact cleanup_iptables_binary_noop w' .v6 true hch6 hbin6'

/-- C8: cleanup is idempotent — for each backend, a second cleanup after a
successful one is a no-op returning no error — and the nft cleanup is a
strict no-op whenever the active-rules probe does not report the reserved
table (so the delete command is issued only when the probe sees it). -/
theorem cleanup_second_run_noop :
    (∀ (b : RuleBackend) (w w' : FwWorld),
      cleanup_dataplane_rules b w = (w', none) →
      cleanup_dataplane_rules b w' = (w', none)) ∧
    (∀ w : FwWorld, nft_rules_active w = false → cleanup_nft_rules w = (w, none)) := by
  constructor
  · intro b w w' h
    cases b with
    | nft =>
      have hsh := cleanup_nft_rules_ok_shape w w' h
      show cleanup_nft_rules w' = (w', none)
      rcases hsh with ⟨hact, hw'⟩ | ⟨hact, hw'⟩
      · subst hw'
        exact cleanup_nft_rules_inactive _ hact
      · apply cleanup_nft_rules_inactive
        rw [hw']
        simp [nft_rules_active]
    | iptables => exact cleanup_iptables_rules_ok w w' h
    | noneB =>
      show (w', none) = (w', none)
      rfl
  · exact cleanup_nft_rules_inactive

/-- Witness for the C8 theorem: after a successful nft cleanup removed the
reserved table, a second cleanup is a no-op. -/
theorem cleanup_second_run_noop_witness :
    cleanup_dataplane_rules .nft { fwEmpty with nftBin := true } =
      ({ fwEmpty with nftBin := true }, none) :=
  cleanup_second_run_noop.1 .nft { fwEmpty with nftBin := true, nftTable := true }
    { fwEmpty with nftBin := true } (by decide)

/-- C3 counterexample: with the nft delete command failing (table present)
but the iptables cleanup succeeding, one backend's cleanup completes
without error, yet `cleanup_dataplane_rules_all` still reports an error —
refuting "fails only if every backend's cleanup failed". -/
theorem cleanup_all_errs_despite_partial_success :
    (cleanup_iptables_rules
      (cleanup_nft_rules
        { fwEmpty with nftBin := true, nftTable := true, nftDeleteOk := false, iptBin := true }).1).2
      = none ∧
    (cleanup_dataplane_rules_all
      { fwEmpty with nftBin := true, nftTable := true, nftDeleteOk := false, iptBin := true }).2
      ≠ none := by
  constructor
  · decide
  · decide

/-- C3 amended: `cleanup_dataplane_rules_all` always attempts both
backends (threading the world through both cleanups), and it fails exactly
when at least one backend's cleanup failed. -/
theorem cleanup_all_attempts_both_fails_on_any_error (w : FwWorld) :
    (cleanup_dataplane_rules_all w).1 =
      (cleanup_iptables_rules (cleanup_nft_rules w).1).1 ∧
    ((cleanup_dataplane_rules_all w).2 = none ↔
      ((cleanup_nft_rules w).2 = none ∧
        (cleanup_iptables_rules (cleanup_nft_rules w).1).2 = none)) := by
  cases e1 : (cleanup_nft_rules w).2 <;>
    cases e2 : (cleanup_iptables_rules (cleanup_nft_rules w).1).2 <;>
      simp [cleanup_dataplane_rules_all, e1, e2]

/-- Witness for the amended C3 theorem: with no tools at all, both
cleanups are no-ops and the aggregate succeeds. -/
theorem cleanup_all_attempts_both_fails_on_any_error_witness :
    (cleanup_dataplane_rules_all { fwEmpty with iptBin := true }).2 = none :=
  (cleanup_all_attempts_both_fails_on_any_error { fwEmpty with iptBin := true }).2.mpr
    ⟨by decide, by decide⟩

/-- C2 counterexample: a prior recorded state with `rules_applied=false`
makes `cmd_off` skip cleanup entirely — the nft table survives — whereas
the claimed "otherwise clean up all backends" behaviour would have removed
it. -/
theorem cmd_off_skips_cleanup_on_recorded_not_applied :
    ((cmd_off argsBase
      { sysBase with
          fw := { fwEmpty with nftBin := true, nftTable := true }
          stateFile := some { stNft with rules_applied := false } }).1.fw.nftTable = true) ∧
    ((cleanup_dataplane_rules_all { fwEmpty with nftBin := true, nftTable := true }).1.nftTable
      = false) ∧
    ((cmd_off argsBase
      { sysBase with
          fw := { fwEmpty with nftBin := true, nftTable := true }
          stateFile := some { stNft with rules_applied := false } }).2 =
        OffResult.okR 7892 none) := by
  refine ⟨?_, ?_, ?_⟩ <;> decide

/-- C2 amended: `cmd_off` cleans exactly the recorded backend when the
prior state says `rules_applied=true`, performs no cleanup when a prior
state says `rules_applied=false`, cleans all backends only when no prior
state exists, and any cleanup failure is a hard error while success never
depends on the restart outcome. -/
theorem cmd_off_cleanup_dispatch :
    (∀ (st : TunState) (fw : FwWorld), st.rules_applied = true →
      off_cleanup (some st) fw = cleanup_dataplane_rules st.backend fw) ∧
    (∀ (st : TunState) (fw : FwWorld), st.rules_applied = false →
      off_cleanup (some st) fw = (fw, none)) ∧
    (∀ fw : FwWorld, off_cleanup none fw = cleanup_dataplane_rules_all fw) ∧
    (∀ (args : TunApplyArgs) (s : Sys) (e : String),
      (off_cleanup s.stateFile s.fw).2 = some e →
      (cmd_off args s).2 = .fatal ("清理数据面规则失败: " ++ e)) ∧
    (∀ (args : TunApplyArgs) (s : Sys),
      (off_cleanup s.stateFile s.fw).2 = none →
      ∃ p r, (cmd_off args s).2 = .okR p r) := by
  refine ⟨?_, ?_, ?_, ?_, ?_⟩
  · intro st fw h
    simp [off_cleanup, h]
  · intro st fw h
    simp [off_cleanup, h]
  · intro fw
    rfl
  · intro args s e h
    unfold cmd_off
    rcases hc : off_cleanup s.stateFile s.fw with ⟨fw', err⟩
    rw [hc] at h
    subst h
    simp [hc]
  · intro args s h
    unfold cmd_off
    rcases hc : off_cleanup s.stateFile s.fw with ⟨fw', err⟩
    rw [hc] at h
    subst h
    simp [hc]

/-- Witness for the amended C2 theorem: a recorded nft state with
`rules_applied=true` dispatches exactly the nft cleanup. -/
theorem cmd_off_cleanup_dispatch_witness :
    off_cleanup (some stNft) fwEmpty = cleanup_dataplane_rules RuleBackend.nft fwEmpty :=
  cmd_off_cleanup_dispatch.1 stNft fwEmpty (by decide)

/-- C1 (code bug evaluation): with both backend tools absent — the spec's
own forced-failure scenario — `cmd_on` mutates and saves the config, then
fails in backend selection with a plain error: no rollback happens, the
error is not tagged as rolled back, and the persisted config keeps
`tun.enable=true` although the pre-call config did not have it. -/
theorem cmd_on_no_rollback_when_backends_missing :
    ((cmd_on argsBase sysBase).2 =
      .fatal "未检测到 nft/iptables，无法下发 tun 数据面规则") ∧
    (bool_field (key_value ((cmd_on argsBase sysBase).1.configFile.getD .nullV) "tun") "enable"
      = some true) ∧
    (bool_field (key_value (sysBase.configFile.getD .nullV) "tun") "enable" = none) := by
  refine ⟨?_, ?_, ?_⟩ <;> decide

/-- C7 counterexample: in JSON mode a doctor run with a fail-level check
still returns success (the process exits 0); only the printed `ok` field
records the failure. -/
theorem cmd_doctor_json_fail_returns_ok :
    cmd_doctor_verdict
      [{ name := "tun.enable", level := .fail, message := "未开启"
         suggestion := some "请设置 tun.enable: true" }] true = .ok (some false) := rfl

theorem summarize_checks_fail_count (checks : List CheckItem) :
    (summarize_checks checks).2.2 = checks.countP (fun c => c.level == CheckLevel.fail) := by
  unfold summarize_checks
  suffices h : ∀ acc : Nat × Nat × Nat,
      (checks.foldl
        (fun acc item =>
          match item.level with
          | .pass => (acc.1 + 1, acc.2.1, acc.2.2)
          | .warn => (acc.1, acc.2.1 + 1, acc.2.2)
          | .fail => (acc.1, acc.2.1, acc.2.2 + 1))
        acc).2.2 = acc.2.2 + checks.countP (fun c => c.level == CheckLevel.fail) by
    simpa using h (0, 0, 0)
  induction checks with
  | nil => intro acc; simp
  | cons c t ih =>
    intro acc
    rw [List.foldl_cons, ih, List.countP_cons]
    cases hl : c.level
    all_goals simp [hl]
    all_goals omega

/-- C7 amended: in text mode the doctor command errors (exits non-zero)
exactly when some check is fail-level; in JSON mode it always returns
success, with the printed `ok` flag false exactly when some check is
fail-level. -/
theorem cmd_doctor_exit_characterization (checks : List CheckItem) :
    ((cmd_doctor_verdict checks false = .ok none) ↔ ∀ c ∈ checks, ¬ c.level = .fail) ∧
    ((∃ e, cmd_doctor_verdict checks false = .error e) ↔ ∃ c ∈ checks, c.level = .fail) ∧
    (cmd_doctor_verdict checks true =
      .ok (some (decide (∀ c ∈ checks, ¬ c.level = .fail)))) := by
  have hcount : ((summarize_checks checks).2.2 = 0) ↔ (∀ c ∈ checks, ¬ c.level = .fail) := by
    rw [summarize_checks_fail_count, List.countP_eq_zero]
    simp
  refine ⟨?_, ?_, ?_⟩
  · rw [← hcount]
    unfold cmd_doctor_verdict
    constructor
    · intro h
      by_contra hne
      have hpos : (summarize_checks checks).2.2 > 0 := Nat.pos_of_ne_zero hne
      simp [hpos] at h
    · intro h
      simp [h]
  · rw [show (∃ c ∈ checks, c.level = .fail) ↔ ¬ ((summarize_checks checks).2.2 = 0) by
        rw [hcount]; push_neg; simp]
    unfold cmd_doctor_verdict
    constructor
    · rintro ⟨e, he⟩ h0
      simp [h0] at he
    · intro h0
      have hpos : (summarize_checks checks).2.2 > 0 := Nat.pos_of_ne_zero h0
      simp [hpos]
  · unfold cmd_doctor_verdict
    simp only [if_true, if_pos]
    congr 1
    rw [show (decide (∀ c ∈ checks, ¬ c.level = .fail)) = ((summarize_checks checks).2.2 == 0) by
      rcases h0 : (summarize_checks checks).2.2 with _ | n
      · simp only [Nat.zero_eq, beq_self_eq_true, decide_eq_true_eq]
        exact hcount.mp h0
      · have : ¬ (∀ c ∈ checks, ¬ c.level = .fail) := fun hall => by
          have := hcount.mpr hall
          omega
        simp [this]]

/-- Witness for the amended C7 theorem: an empty check list exits 0 in
text mode. -/
theorem cmd_doctor_exit_characterization_witness :
    cmd_doctor_verdict [] false = .ok none :=
  (cmd_doctor_exit_characterization []).1.mpr (by simp)

/-- C9: the privilege check grants exactly when `id -u` reports effective
UID 0, or when the CapEff bitmask parsed from the process status has both
bit 12 (CAP_NET_ADMIN) and bit 13 (CAP_NET_RAW) set; in every other case
it returns the insufficient-privilege message, which names both required
capabilities. -/
theorem ensure_tun_privileges_grant_iff (idOut statusContent : Option String) :
    (ensure_tun_privileges idOut statusContent = none ↔
      ((∃ out, idOut = some out ∧ String.mk (trimChars out.data) = "0") ∨
        (∃ mask, read_cap_eff statusContent = .ok mask ∧
          mask &&& (1 <<< CAP_NET_ADMIN_BIT) ≠ 0 ∧ mask &&& (1 <<< CAP_NET_RAW_BIT) ≠ 0))) ∧
    (∀ e, ensure_tun_privileges idOut statusContent = some e →
      e = privErrMsg ∧
      ∃ a b c, privErrMsg = a ++ "CAP_NET_ADMIN" ++ b ++ "CAP_NET_RAW" ++ c) := by
  have grantIffAux : ∀ (c : Bool) (m : String),
      (((if c = true then none else some m) : Option String) = none) ↔ c = true := by
    intro c m
    cases c <;> simp
  constructor
  · unfold ensure_tun_privileges is_root_user has_capability_bit
    cases idOut with
    | none =>
      cases hc : read_cap_eff statusContent with
      | error e => simp [hc, grantIffAux, Except.toOption, Except.map, bne_iff_ne]
      | ok mask => simp [hc, grantIffAux, Except.toOption, Except.map, bne_iff_ne]
    | some out =>
      cases hroot : decide (String.mk (trimChars out.data) = "0") with
      | true =>
        have hr := of_decide_eq_true hroot
        cases hc : read_cap_eff statusContent with
        | error e => simp [hc, grantIffAux, Except.toOption, Except.map, hroot, hr]
        | ok mask => simp [hc, grantIffAux, Except.toOption, Except.map, hroot, hr, bne_iff_ne]
      | false =>
        have hr := of_decide_eq_false hroot
        cases hc : read_cap_eff statusContent with
        | error e => simp [hc, grantIffAux, Except.toOption, Except.map, hroot, hr, bne_iff_ne]
        | ok mask => simp [hc, grantIffAux, Except.toOption, Except.map, hroot, hr, bne_iff_ne]
  · intro e h
    unfold ensure_tun_privileges at h
    constructor
    · by_cases hcond :
        (((is_root_user idOut).toOption).getD false
          || (((has_capability_bit statusContent CAP_NET_ADMIN_BIT).toOption).getD false
              && ((has_capability_bit statusContent CAP_NET_RAW_BIT).toOption).getD false)) = true
      · rw [if_pos hcond] at h
        cases h
      · rw [if_neg hcond] at h
        exact (Option.some.injEq _ _).mp h.symm
    · exact ⟨"当前权限不足：需要 root 或 ", " + ",
        "。请使用 sudo 执行，例如 `sudo clash tun on`", by decide⟩

/-- Witness for the C9 theorem: a root `id -u` output of `0` grants. -/
theorem ensure_tun_privileges_grant_iff_witness :
    ensure_tun_privileges (some "0\n") none = none :=
  (ensure_tun_privileges_grant_iff (some "0\n") none).1.mpr
    (Or.inl ⟨"0\n", rfl, by decide⟩)

theorem charVal_digitChar (d : Nat) (h : d < 10) : charVal (digitChar d) = d := by
  interval_cases d <;> rfl

theorem digitChar_isDigit (d : Nat) : (digitChar d).isDigit = true := by
  unfold digitChar
  split <;> rfl

theorem natDigitsBE_all_digits (n : Nat) : ∀ c ∈ natDigitsBE n, c.isDigit = true := by
  induction n using Nat.strong_induction_on with
  | _ n ih =>
    rw [natDigitsBE]
    by_cases h : n < 10
    · simp only [dif_pos h, List.mem_singleton]
      intro c hc
      subst hc
      exact digitChar_isDigit n
    · rw [dif_neg h]
      intro c hc
      rcases List.mem_append.mp hc with hc | hc
      · exact ih (n / 10) (Nat.div_lt_self (by omega) (by omega)) c hc
      · rw [List.mem_singleton] at hc
        subst hc
        exact digitChar_isDigit _

theorem natDigitsBE_ne_nil (n : Nat) : natDigitsBE n ≠ [] := by
  rw [natDigitsBE]
  by_cases h : n < 10
  · simp [dif_pos h]
  · rw [dif_neg h]
    simp

theorem digitsToNat_natDigitsBE (n : Nat) : digitsToNat (natDigitsBE n) = n := by
  induction n using Nat.strong_induction_on with
  | _ n ih =>
    rw [natDigitsBE]
    by_cases h : n < 10
    · rw [dif_pos h]
      show 0 * 10 + charVal (digitChar n) = n
      rw [charVal_digitChar n h]
      omega
    · rw [dif_neg h]
      unfold digitsToNat
      rw [List.foldl_append]
      show digitsToNat (natDigitsBE (n / 10)) * 10 + charVal (digitChar (n % 10)) = n
      rw [ih (n / 10) (Nat.div_lt_self (by omega) (by omega)),
        charVal_digitChar (n % 10) (by omega)]
      omega

theorem isDigit_ne_plus (c : Char) (h : c.isDigit = true) : c ≠ '+' := by
  intro hc
  subst hc
  simp [Char.isDigit] at h

theorem parseUInt_natDigitsBE (n : Nat) : parseUInt (natDigitsBE n) = some n := by
  have hall := natDigitsBE_all_digits n
  have hne := natDigitsBE_ne_nil n
  have hcore : parseNatCore (natDigitsBE n) = some n := by
    unfold parseNatCore
    rw [if_pos ⟨hne, List.all_eq_true.mpr (fun c hc => hall c hc)⟩]
    rw [digitsToNat_natDigitsBE]
  unfold parseUInt
  split
  · rename_i rest heq
    exfalso
    have : '+' ∈ natDigitsBE n := by rw [heq]; exact List.mem_cons_self _ _
    have := hall _ this
    simp [Char.isDigit] at this
  · exact hcore

theorem isDigit_not_whitespace (c : Char) (h : c.isDigit = true) : rustIsWhitespace c = false := by
  have hb : 48 ≤ c.toNat ∧ c.toNat ≤ 57 := by
    unfold Char.isDigit at h
    simp only [Bool.and_eq_true, decide_eq_true_eq] at h
    exact h
  rw [rustIsWhitespace]
  exact decide_eq_false (by omega)

theorem dropWhile_all_false {p : Char → Bool} (l : List Char)
    (h : ∀ c ∈ l, p c = false) : l.dropWhile p = l := by
  cases l with
  | nil => rfl
  | cons c t =>
    rw [List.dropWhile_cons, h c (List.mem_cons_self _ _)]
    simp

theorem trimChars_no_whitespace (l : List Char)
    (h : ∀ c ∈ l, rustIsWhitespace c = false) : trimChars l = l := by
  unfold trimChars
  rw [dropWhile_all_false l h,
    dropWhile_all_false l.reverse (fun c hc => h c (List.mem_reverse.mp hc)),
    List.reverse_reverse]

theorem trimChars_digits (n : Nat) : trimChars (natDigitsBE n) = natDigitsBE n :=
  trimChars_no_whitespace _ (fun c hc => isDigit_not_whitespace c (natDigitsBE_all_digits n c hc))

theorem splitLinesAux_line (l : List Char) (rest acc : List Char)
    (hnl : ∀ c ∈ l, ¬ c = '\n') :
    splitLinesAux (l ++ '\n' :: rest) acc =
      (stripCRLast (l.reverse ++ acc)).reverse :: splitLinesAux rest [] := by
  induction l generalizing acc with
  | nil =>
    show splitLinesAux ('\n' :: rest) acc = _
    rw [splitLinesAux]
    simp
  | cons c t ih =>
    have hc : ¬ c = '\n' := hnl c (List.mem_cons_self _ _)
    show splitLinesAux (c :: (t ++ '\n' :: rest)) acc = _
    rw [splitLinesAux, if_neg hc, ih (c :: acc) (fun x hx => hnl x (List.mem_cons_of_mem _ hx))]
    rw [List.reverse_cons, List.append_assoc]
    rfl

theorem stripCRLast_reverse_of_getLast (l : List Char) (h : l.getLast? ≠ some '\r') :
    stripCRLast l.reverse = l.reverse := by
  rw [← List.head?_reverse] at h
  cases hr : l.reverse with
  | nil => rfl
  | cons c t =>
    rw [hr] at h
    simp only [List.head?_cons] at h
    unfold stripCRLast
    split
    · rename_i rest heq
      exfalso
      apply h
      rw [List.cons.injEq] at heq
      rw [heq.1]
    · rfl

theorem splitLines_cons_line (l rest : List Char)
    (hnl : ∀ c ∈ l, ¬ c = '\n') (hcr : l.getLast? ≠ some '\r') :
    splitLinesAux (l ++ '\n' :: rest) [] = l :: splitLinesAux rest [] := by
  rw [splitLinesAux_line l rest [] hnl, List.append_nil,
    stripCRLast_reverse_of_getLast l hcr, List.reverse_reverse]

theorem splitEq_append (k v : List Char) (hk : ∀ c ∈ k, ¬ c = '=') :
    splitEq (k ++ '=' :: v) = (k, some v) := by
  induction k with
  | nil =>
    show splitEq ('=' :: v) = _
    rw [splitEq]
    simp
  | cons c t ih =>
    have hc : ¬ c = '=' := hk c (List.mem_cons_self _ _)
    show splitEq (c :: (t ++ '=' :: v)) = _
    rw [splitEq, if_neg hc, ih (fun x hx => hk x (List.mem_cons_of_mem _ hx))]

theorem procLine_preserves_enabled (acc : ParseAcc) (line : List Char) (acc' : ParseAcc)
    (h : procLine acc line = .ok acc')
    (hk : ¬ trimChars (splitEq line).1 = "enabled".data) : acc'.enabled = acc.enabled := by
  simp only [procLine] at h
  repeat' split at h
  all_goals first
    | exact absurd (by assumption) hk
    | (injection h with h; subst h; rfl)
    | cases h

theorem procLine_preserves_service_name (acc : ParseAcc) (line : List Char) (acc' : ParseAcc)
    (h : procLine acc line = .ok acc')
    (hk : ¬ trimChars (splitEq line).1 = "service_name".data) : acc'.service_name = acc.service_name := by
  simp only [procLine] at h
  repeat' split at h
  all_goals first
    | exact absurd (by assumption) hk
    | (injection h with h; subst h; rfl)
    | cases h

theorem procLine_preserves_user_service (acc : ParseAcc) (line : List Char) (acc' : ParseAcc)
    (h : procLine acc line = .ok acc')
    (hk : ¬ trimChars (splitEq line).1 = "user_service".data) : acc'.user_service = acc.user_service := by
  simp only [procLine] at h
  repeat' split at h
  all_goals first
    | exact absurd (by assumption) hk
    | (injection h with h; subst h; rfl)
    | cases h

theorem procLine_preserves_backend (acc : ParseAcc) (line : List Char) (acc' : ParseAcc)
    (h : procLine acc line = .ok acc')
    (hk : ¬ trimChars (splitEq line).1 = "backend".data) : acc'.backend = acc.backend := by
  simp only [procLine] at h
  repeat' split at h
  all_goals first
    | exact absurd (by assumption) hk
    | (injection h with h; subst h; rfl)
    | cases h

theorem procLine_preserves_redir_port (acc : ParseAcc) (line : List Char) (acc' : ParseAcc)
    (h : procLine acc line = .ok acc')
    (hk : ¬ trimChars (splitEq line).1 = "redir_port".data) : acc'.redir_port = acc.redir_port := by
  simp only [procLine] at h
  repeat' split at h
  all_goals first
    | exact absurd (by assumption) hk
    | (injection h with h; subst h; rfl)
    | cases h

theorem procLine_preserves_rules_applied (acc : ParseAcc) (line : List Char) (acc' : ParseAcc)
    (h : procLine acc line = .ok acc')
    (hk : ¬ trimChars (splitEq line).1 = "rules_applied".data) : acc'.rules_applied = acc.rules_applied := by
  simp only [procLine] at h
  repeat' split at h
  all_goals first
    | exact absurd (by assumption) hk
    | (injection h with h; subst h; rfl)
    | cases h

theorem procLine_preserves_updated_at (acc : ParseAcc) (line : List Char) (acc' : ParseAcc)
    (h : procLine acc line = .ok acc')
    (hk : ¬ trimChars (splitEq line).1 = "updated_at".data) : acc'.updated_at = acc.updated_at := by
  simp only [procLine] at h
  repeat' split at h
  all_goals first
    | exact absurd (by assumption) hk
    | (injection h with h; subst h; rfl)
    | cases h

theorem bind_ok_eq {α β : Type} (a : α) (f : α → Except String β) :
    (Except.ok a >>= f) = f a := rfl

theorem bind_error_eq {α β : Type} (e : String) (f : α → Except String β) :
    ((Except.error e : Except String α) >>= f) = .error e := rfl

theorem foldlM_procLine_preserves {α : Type} (g : ParseAcc → α) (k : List Char)
    (hstep : ∀ (acc : ParseAcc) (line : List Char) (acc' : ParseAcc),
      procLine acc line = .ok acc' → ¬ trimChars (splitEq line).1 = k → g acc' = g acc)
    (lines : List (List Char)) :
    ∀ acc acc' : ParseAcc,
      lines.foldlM procLine acc = .ok acc' →
      (∀ line ∈ lines, ¬ trimChars (splitEq line).1 = k) → g acc' = g acc := by
  induction lines with
  | nil =>
    intro acc acc' h _
    simp only [List.foldlM_nil] at h
    injection h with h
    rw [h]
  | cons l t ih =>
    intro acc acc' h hk
    rw [List.foldlM_cons] at h
    cases hstep0 : procLine acc l with
    | error e =>
      rw [hstep0, bind_error_eq] at h
      cases h
    | ok acc1 =>
      rw [hstep0, bind_ok_eq] at h
      rw [ih acc1 acc' h (fun line hl => hk line (List.mem_cons_of_mem _ hl)),
        hstep acc l acc1 hstep0 (hk l (List.mem_cons_self _ _))]

theorem foldlM_procLine_error (lines : List (List Char)) (line0 : List Char)
    (hmem : line0 ∈ lines)
    (herr : ∀ acc : ParseAcc, ∃ e, procLine acc line0 = .error e) :
    ∀ acc : ParseAcc, ∃ e, lines.foldlM procLine acc = .error e := by
  induction lines with
  | nil => cases hmem
  | cons l t ih =>
    intro acc
    rw [List.foldlM_cons]
    rcases List.mem_cons.mp hmem with hl | hl
    · subst hl
      obtain ⟨e, he⟩ := herr acc
      rw [he, bind_error_eq]
      exact ⟨e, rfl⟩
    · cases hstep : procLine acc l with
      | error e =>
        rw [bind_error_eq]
        exact ⟨e, rfl⟩
      | ok acc1 =>
        obtain ⟨e, he⟩ := ih hl acc1
        rw [bind_ok_eq]
        exact ⟨e, he⟩

theorem procLine_redir_port_error (acc : ParseAcc) (line : List Char)
    (hkey : trimChars (splitEq line).1 = "redir_port".data)
    (hval : parseU16 (String.mk (trimChars ((splitEq line).2.getD []))) = none) :
    procLine acc line = .error "解析 tun.state.redir_port 失败" := by
  have c1 : ¬ ("redir_port".data = "enabled".data) := by decide
  have c2 : ¬ ("redir_port".data = "service_name".data) := by decide
  have c3 : ¬ ("redir_port".data = "user_service".data) := by decide
  have c4 : ¬ ("redir_port".data = "backend".data) := by decide
  simp only [procLine, hkey, if_neg c1, if_neg c2, if_neg c3, if_neg c4, eq_self_iff_true,
    if_true, hval]

theorem procLine_updated_at_error (acc : ParseAcc) (line : List Char)
    (hkey : trimChars (splitEq line).1 = "updated_at".data)
    (hval : parseU64 (String.mk (trimChars ((splitEq line).2.getD []))) = none) :
    procLine acc line = .error "解析 tun.state.updated_at 失败" := by
  have c1 : ¬ ("updated_at".data = "enabled".data) := by decide
  have c2 : ¬ ("updated_at".data = "service_name".data) := by decide
  have c3 : ¬ ("updated_at".data = "user_service".data) := by decide
  have c4 : ¬ ("updated_at".data = "backend".data) := by decide
  have c5 : ¬ ("updated_at".data = "redir_port".data) := by decide
  have c6 : ¬ ("updated_at".data = "rules_applied".data) := by decide
  simp only [procLine, hkey, if_neg c1, if_neg c2, if_neg c3, if_neg c4, if_neg c5, if_neg c6,
    eq_self_iff_true, if_true, hval]

theorem finalizeAcc_ok_shape (acc : ParseAcc) (st : TunState)
    (h : finalizeAcc acc = .ok st) :
    st.backend = acc.backend.getD .noneB ∧
    st.redir_port = acc.redir_port.getD DEFAULT_REDIR_PORT ∧
    st.rules_applied = acc.rules_applied.getD false := by
  unfold finalizeAcc at h
  repeat' split at h
  all_goals first
    | (injection h with h; subst h; exact ⟨rfl, rfl, rfl⟩)
    | cases h

theorem finalizeAcc_error_enabled (acc : ParseAcc) (h : acc.enabled = none) :
    ∃ e, finalizeAcc acc = .error e := by
  unfold finalizeAcc
  repeat' split
  all_goals first | exact ⟨_, rfl⟩ | simp_all

theorem finalizeAcc_error_service_name (acc : ParseAcc) (h : acc.service_name = none) :
    ∃ e, finalizeAcc acc = .error e := by
  unfold finalizeAcc
  repeat' split
  all_goals first | exact ⟨_, rfl⟩ | simp_all

theorem finalizeAcc_error_user_service (acc : ParseAcc) (h : acc.user_service = none) :
    ∃ e, finalizeAcc acc = .error e := by
  unfold finalizeAcc
  repeat' split
  all_goals first | exact ⟨_, rfl⟩ | simp_all

theorem finalizeAcc_error_updated_at (acc : ParseAcc) (h : acc.updated_at = none) :
    ∃ e, finalizeAcc acc = .error e := by
  unfold finalizeAcc
  repeat' split
  all_goals first | exact ⟨_, rfl⟩ | simp_all

theorem length_dropWhile_le (p : Char → Bool) (l : List Char) :
    (l.dropWhile p).length ≤ l.length := by
  induction l with
  | nil => simp
  | cons c t ih =>
    rw [List.dropWhile_cons]
    by_cases hc : p c = true
    · rw [if_pos hc]
      exact Nat.le_succ_of_le ih
    · rw [if_neg hc]

theorem dropWhile_length_lt_of_head (p : Char → Bool) (c : Char) (t : List Char)
    (hc : p c = true) :
    (List.dropWhile p (c :: t)).length < (c :: t).length := by
  rw [List.dropWhile_cons, if_pos hc]
  exact Nat.lt_succ_of_le (length_dropWhile_le p t)

theorem dropWhile_eq_self_of_length (p : Char → Bool) (l : List Char)
    (h : (l.dropWhile p).length = l.length) : l.dropWhile p = l := by
  cases l with
  | nil => rfl
  | cons c t =>
    by_cases hc : p c = true
    · exfalso
      have := dropWhile_length_lt_of_head p c t hc
      omega
    · rw [List.dropWhile_cons, if_neg hc]

theorem trimChars_self_getLast_not_ws (l : List Char) (h : trimChars l = l) (c : Char)
    (hc : l.getLast? = some c) : rustIsWhitespace c = false := by
  by_contra hw
  rw [Bool.not_eq_false] at hw
  have hlen : (trimChars l).length < l.length := by
    unfold trimChars
    rw [List.length_reverse]
    by_cases hdl : (l.dropWhile rustIsWhitespace).length = l.length
    · have hde : l.dropWhile rustIsWhitespace = l := dropWhile_eq_self_of_length _ _ hdl
      rw [hde]
      have hhead : l.reverse.head? = some c := by rw [List.head?_reverse, hc]
      cases hr : l.reverse with
      | nil => rw [hr] at hhead; cases hhead
      | cons c0 t0 =>
        rw [hr] at hhead
        injection hhead with hhead
        subst hhead
        have h1 := dropWhile_length_lt_of_head rustIsWhitespace c0 t0 hw
        have h2 : (c0 :: t0).length = l.length := by
          rw [← hr, List.length_reverse]
        omega
    · have hle := length_dropWhile_le rustIsWhitespace l
      have h1 := length_dropWhile_le rustIsWhitespace (l.dropWhile rustIsWhitespace).reverse
      rw [List.length_reverse] at h1
      omega
  rw [h] at hlen
  omega

theorem boolToStr_no_nl (b : Bool) : ∀ c ∈ (boolToStr b).data, ¬ c = '\n' := by
  cases b <;> decide

theorem as_str_no_nl (bk : RuleBackend) : ∀ c ∈ (RuleBackend.as_str bk).data, ¬ c = '\n' := by
  cases bk <;> decide

theorem digits_no_nl (n : Nat) : ∀ c ∈ natDigitsBE n, ¬ c = '\n' := by
  intro c hc heq
  have := natDigitsBE_all_digits n c hc
  subst heq
  simp [Char.isDigit] at this

theorem line_no_nl (k v : List Char) (hk : ∀ c ∈ k, ¬ c = '\n')
    (hv : ∀ c ∈ v, ¬ c = '\n') : ∀ c ∈ k ++ '=' :: v, ¬ c = '\n' := by
  intro c hc
  rcases List.mem_append.mp hc with hc | hc
  · exact hk c hc
  · rcases List.mem_cons.mp hc with rfl | hc
    · decide
    · exact hv c hc

theorem line_last_ne_cr (k v : List Char) (hv : ('=' :: v).getLast? ≠ some '\r') :
    (k ++ '=' :: v).getLast? ≠ some '\r' := by
  rw [List.getLast?_append_cons]
  exact hv

theorem eq_cons_getLast_bool (b : Bool) : ('=' :: (boolToStr b).data).getLast? ≠ some '\r' := by
  cases b <;> decide

theorem eq_cons_getLast_backend (bk : RuleBackend) :
    ('=' :: (RuleBackend.as_str bk).data).getLast? ≠ some '\r' := by
  cases bk <;> decide

theorem eq_cons_getLast_digits (n : Nat) : ('=' :: natDigitsBE n).getLast? ≠ some '\r' := by
  intro h
  rw [show ('=' :: natDigitsBE n) = ['='] ++ natDigitsBE n from rfl,
    List.getLast?_append_of_ne_nil _ (natDigitsBE_ne_nil n)] at h
  have hmem := List.mem_of_mem_getLast? h
  have := natDigitsBE_all_digits n _ hmem
  simp [Char.isDigit] at this

theorem eq_cons_getLast_trimmed (v : List Char) (htrim : trimChars v = v) :
    ('=' :: v).getLast? ≠ some '\r' := by
  cases hv : v with
  | nil => decide
  | cons a t =>
    intro h
    rw [show ('=' :: (a :: t)) = ['='] ++ (a :: t) from rfl,
      List.getLast?_append_of_ne_nil _ (by simp)] at h
    rw [hv] at htrim
    have := trimChars_self_getLast_not_ws (a :: t) htrim '\r' h
    exact absurd this (by decide)

theorem trimChars_boolToStr (b : Bool) : trimChars (boolToStr b).data = (boolToStr b).data := by
  cases b <;> decide

theorem trimChars_as_str (bk : RuleBackend) :
    trimChars (RuleBackend.as_str bk).data = (RuleBackend.as_str bk).data := by
  cases bk <;> decide

theorem procLine_eval_enabled (acc : ParseAcc) (b : Bool) :
    procLine acc ("enabled".data ++ '=' :: (boolToStr b).data) =
      .ok { acc with enabled := some b } := by
  have hsp := splitEq_append "enabled".data (boolToStr b).data (by decide)
  simp only [procLine, hsp, Option.getD_some,
    show trimChars "enabled".data = "enabled".data from by decide,
    eq_self_iff_true, if_true]
  rw [show (decide (trimChars (boolToStr b).data = "true".data)) = b from by cases b <;> decide]

theorem procLine_eval_service_name (acc : ParseAcc) (v : List Char)
    (htrim : trimChars v = v) :
    procLine acc ("service_name".data ++ '=' :: v) =
      .ok { acc with service_name := some (String.mk v) } := by
  have hsp := splitEq_append "service_name".data v (by decide)
  simp only [procLine, hsp, Option.getD_some,
    show trimChars "service_name".data = "service_name".data from by decide,
    if_neg (show ¬ ("service_name".data = "enabled".data) from by decide),
    eq_self_iff_true, if_true, htrim]

theorem procLine_eval_user_service (acc : ParseAcc) (b : Bool) :
    procLine acc ("user_service".data ++ '=' :: (boolToStr b).data) =
      .ok { acc with user_service := some b } := by
  have hsp := splitEq_append "user_service".data (boolToStr b).data (by decide)
  simp only [procLine, hsp, Option.getD_some,
    show trimChars "user_service".data = "user_service".data from by decide,
    if_neg (show ¬ ("user_service".data = "enabled".data) from by decide),
    if_neg (show ¬ ("user_service".data = "service_name".data) from by decide),
    eq_self_iff_true, if_true]
  rw [show (decide (trimChars (boolToStr b).data = "true".data)) = b from by cases b <;> decide]

theorem procLine_eval_backend (acc : ParseAcc) (bk : RuleBackend) :
    procLine acc ("backend".data ++ '=' :: (RuleBackend.as_str bk).data) =
      .ok { acc with backend := some bk } := by
  have hsp := splitEq_append "backend".data (RuleBackend.as_str bk).data (by decide)
  simp only [procLine, hsp, Option.getD_some,
    show trimChars "backend".data = "backend".data from by decide,
    if_neg (show ¬ ("backend".data = "enabled".data) from by decide),
    if_neg (show ¬ ("backend".data = "service_name".data) from by decide),
    if_neg (show ¬ ("backend".data = "user_service".data) from by decide),
    eq_self_iff_true, if_true, trimChars_as_str]
  rw [show RuleBackend.from_str (String.mk (RuleBackend.as_str bk).data) = bk from by
    cases bk <;> decide]

theorem parseU16_digits (n : Nat) (h : n < 65536) :
    parseU16 (String.mk (natDigitsBE n)) = some n := by
  unfold parseU16
  rw [show (String.mk (natDigitsBE n)).data = natDigitsBE n from rfl,
    parseUInt_natDigitsBE n]
  rw [Option.some_bind, if_pos (by omega : n ≤ 65535)]

theorem parseU64_digits (n : Nat) (h : n < 2 ^ 64) :
    parseU64 (String.mk (natDigitsBE n)) = some n := by
  unfold parseU64
  rw [show (String.mk (natDigitsBE n)).data = natDigitsBE n from rfl,
    parseUInt_natDigitsBE n]
  rw [Option.some_bind, if_pos h]

theorem procLine_eval_redir_port (acc : ParseAcc) (n : Nat) (h : n < 65536) :
    procLine acc ("redir_port".data ++ '=' :: natDigitsBE n) =
      .ok { acc with redir_port := some n } := by
  have hsp := splitEq_append "redir_port".data (natDigitsBE n) (by decide)
  simp only [procLine, hsp, Option.getD_some,
    show trimChars "redir_port".data = "redir_port".data from by decide,
    if_neg (show ¬ ("redir_port".data = "enabled".data) from by decide),
    if_neg (show ¬ ("redir_port".data = "service_name".data) from by decide),
    if_neg (show ¬ ("redir_port".data = "user_service".data) from by decide),
    if_neg (show ¬ ("redir_port".data = "backend".data) from by decide),
    eq_self_iff_true, if_true, trimChars_digits, parseU16_digits n h]

theorem procLine_eval_rules_applied (acc : ParseAcc) (b : Bool) :
    procLine acc ("rules_applied".data ++ '=' :: (boolToStr b).data) =
      .ok { acc with rules_applied := some b } := by
  have hsp := splitEq_append "rules_applied".data (boolToStr b).data (by decide)
  simp only [procLine, hsp, Option.getD_some,
    show trimChars "rules_applied".data = "rules_applied".data from by decide,
    if_neg (show ¬ ("rules_applied".data = "enabled".data) from by decide),
    if_neg (show ¬ ("rules_applied".data = "service_name".data) from by decide),
    if_neg (show ¬ ("rules_applied".data = "user_service".data) from by decide),
    if_neg (show ¬ ("rules_applied".data = "backend".data) from by decide),
    if_neg (show ¬ ("rules_applied".data = "redir_port".data) from by decide),
    eq_self_iff_true, if_true]
  rw [show (decide (trimChars (boolToStr b).data = "true".data)) = b from by cases b <;> decide]

theorem procLine_eval_updated_at (acc : ParseAcc) (n : Nat) (h : n < 2 ^ 64) :
    procLine acc ("updated_at".data ++ '=' :: natDigitsBE n) =
      .ok { acc with updated_at := some n } := by
  have hsp := splitEq_append "updated_at".data (natDigitsBE n) (by decide)
  simp only [procLine, hsp, Option.getD_some,
    show trimChars "updated_at".data = "updated_at".data from by decide,
    if_neg (show ¬ ("updated_at".data = "enabled".data) from by decide),
    if_neg (show ¬ ("updated_at".data = "service_name".data) from by decide),
    if_neg (show ¬ ("updated_at".data = "user_service".data) from by decide),
    if_neg (show ¬ ("updated_at".data = "backend".data) from by decide),
    if_neg (show ¬ ("updated_at".data = "redir_port".data) from by decide),
    if_neg (show ¬ ("updated_at".data = "rules_applied".data) from by decide),
    eq_self_iff_true, if_true, trimChars_digits, parseU64_digits n h]

theorem to_text_data (s : TunState) :
    (TunState.to_text s).data =
      ("enabled".data ++ '=' :: (boolToStr s.enabled).data) ++ '\n' ::
      (("service_name".data ++ '=' :: s.service_name.data) ++ '\n' ::
      (("user_service".data ++ '=' :: (boolToStr s.user_service).data) ++ '\n' ::
      (("backend".data ++ '=' :: (RuleBackend.as_str s.backend).data) ++ '\n' ::
      (("redir_port".data ++ '=' :: natDigitsBE s.redir_port) ++ '\n' ::
      (("rules_applied".data ++ '=' :: (boolToStr s.rules_applied).data) ++ '\n' ::
      (("updated_at".data ++ '=' :: natDigitsBE s.updated_at) ++ '\n' :: [])))))) := by
  simp only [TunState.to_text, String.data_append, natToStr,
    show ("enabled=" : String).data = "enabled".data ++ ['='] from by decide,
    show ("service_name=" : String).data = "service_name".data ++ ['='] from by decide,
    show ("user_service=" : String).data = "user_service".data ++ ['='] from by decide,
    show ("backend=" : String).data = "backend".data ++ ['='] from by decide,
    show ("redir_port=" : String).data = "redir_port".data ++ ['='] from by decide,
    show ("rules_applied=" : String).data = "rules_applied".data ++ ['='] from by decide,
    show ("updated_at=" : String).data = "updated_at".data ++ ['='] from by decide,
    show ("\n" : String).data = ['\n'] from by decide]
  simp [List.append_assoc]

theorem rustLines_to_text (s : TunState)
    (hnl : ∀ c ∈ s.service_name.data, ¬ c = '\n')
    (htrim : trimChars s.service_name.data = s.service_name.data) :
    rustLines (TunState.to_text s) =
      [("enabled".data ++ '=' :: (boolToStr s.enabled).data),
       ("service_name".data ++ '=' :: s.service_name.data),
       ("user_service".data ++ '=' :: (boolToStr s.user_service).data),
       ("backend".data ++ '=' :: (RuleBackend.as_str s.backend).data),
       ("redir_port".data ++ '=' :: natDigitsBE s.redir_port),
       ("rules_applied".data ++ '=' :: (boolToStr s.rules_applied).data),
       ("updated_at".data ++ '=' :: natDigitsBE s.updated_at)] := by
  unfold rustLines
  rw [to_text_data s]
  rw [splitLines_cons_line _ _
    (line_no_nl _ _ (by decide) (boolToStr_no_nl s.enabled))
    (line_last_ne_cr _ _ (eq_cons_getLast_bool s.enabled))]
  rw [splitLines_cons_line _ _
    (line_no_nl _ _ (by decide) hnl)
    (line_last_ne_cr _ _ (eq_cons_getLast_trimmed _ htrim))]
  rw [splitLines_cons_line _ _
    (line_no_nl _ _ (by decide) (boolToStr_no_nl s.user_service))
    (line_last_ne_cr _ _ (eq_cons_getLast_bool s.user_service))]
  rw [splitLines_cons_line _ _
    (line_no_nl _ _ (by decide) (as_str_no_nl s.backend))
    (line_last_ne_cr _ _ (eq_cons_getLast_backend s.backend))]
  rw [splitLines_cons_line _ _
    (line_no_nl _ _ (by decide) (digits_no_nl s.redir_port))
    (line_last_ne_cr _ _ (eq_cons_getLast_digits s.redir_port))]
  rw [splitLines_cons_line _ _
    (line_no_nl _ _ (by decide) (boolToStr_no_nl s.rules_applied))
    (line_last_ne_cr _ _ (eq_cons_getLast_bool s.rules_applied))]
  rw [splitLines_cons_line _ _
    (line_no_nl _ _ (by decide) (digits_no_nl s.updated_at))
    (line_last_ne_cr _ _ (eq_cons_getLast_digits s.updated_at))]
  rfl

theorem from_text_to_text (s : TunState)
    (hnl : ∀ c ∈ s.service_name.data, ¬ c = '\n')
    (htrim : trimChars s.service_name.data = s.service_name.data)
    (hport : s.redir_port < 65536)
    (hupd : s.updated_at < 2 ^ 64) :
    TunState.from_text (TunState.to_text s) = .ok s := by
  show (rustLines (TunState.to_text s)).foldlM procLine {} >>= finalizeAcc = .ok s
  rw [rustLines_to_text s hnl htrim]
  rw [List.foldlM_cons]
  rw [procLine_eval_enabled]
  rw [bind_ok_eq]
  rw [List.foldlM_cons, procLine_eval_service_name _ _ htrim, bind_ok_eq]
  rw [List.foldlM_cons, procLine_eval_user_service, bind_ok_eq]
  rw [List.foldlM_cons, procLine_eval_backend, bind_ok_eq]
  rw [List.foldlM_cons, procLine_eval_redir_port _ _ hport, bind_ok_eq]
  rw [List.foldlM_cons, procLine_eval_rules_applied, bind_ok_eq]
  rw [List.foldlM_cons, procLine_eval_updated_at _ _ hupd, bind_ok_eq]
  rw [List.foldlM_nil, pure_bind]
  show finalizeAcc
    { enabled := some s.enabled, service_name := some (String.mk s.service_name.data),
      user_service := some s.user_service, backend := some s.backend,
      redir_port := some s.redir_port, rules_applied := some s.rules_applied,
      updated_at := some s.updated_at } = .ok s
  rfl

theorem from_text_missing_enabled (content : String)
    (hk : ∀ line ∈ rustLines content, ¬ trimChars (splitEq line).1 = "enabled".data) :
    ∃ e, TunState.from_text content = .error e := by
  show ∃ e, (rustLines content).foldlM procLine {} >>= finalizeAcc = .error e
  cases hf : (rustLines content).foldlM procLine {} with
  | error e => exact ⟨e, by rw [bind_error_eq]⟩
  | ok acc =>
    have hen : acc.enabled = ({} : ParseAcc).enabled :=
      foldlM_procLine_preserves (fun a => a.enabled) "enabled".data
        (fun acc line acc2 h hne => procLine_preserves_enabled acc line acc2 h hne)
        (rustLines content) {} acc hf hk
    obtain ⟨e, he⟩ := finalizeAcc_error_enabled acc (by rw [hen])
    exact ⟨e, by rw [bind_ok_eq, he]⟩

theorem from_text_missing_service_name (content : String)
    (hk : ∀ line ∈ rustLines content, ¬ trimChars (splitEq line).1 = "service_name".data) :
    ∃ e, TunState.from_text content = .error e := by
  show ∃ e, (rustLines content).foldlM procLine {} >>= finalizeAcc = .error e
  cases hf : (rustLines content).foldlM procLine {} with
  | error e => exact ⟨e, by rw [bind_error_eq]⟩
  | ok acc =>
    have hen : acc.service_name = ({} : ParseAcc).service_name :=
      foldlM_procLine_preserves (fun a => a.service_name) "service_name".data
        (fun acc line acc2 h hne => procLine_preserves_service_name acc line acc2 h hne)
        (rustLines content) {} acc hf hk
    obtain ⟨e, he⟩ := finalizeAcc_error_service_name acc (by rw [hen])
    exact ⟨e, by rw [bind_ok_eq, he]⟩

theorem from_text_missing_user_service (content : String)
    (hk : ∀ line ∈ rustLines content, ¬ trimChars (splitEq line).1 = "user_service".data) :
    ∃ e, TunState.from_text content = .error e := by
  show ∃ e, (rustLines content).foldlM procLine {} >>= finalizeAcc = .error e
  cases hf : (rustLines content).foldlM procLine {} with
  | error e => exact ⟨e, by rw [bind_error_eq]⟩
  | ok acc =>
    have hen : acc.user_service = ({} : ParseAcc).user_service :=
      foldlM_procLine_preserves (fun a => a.user_service) "user_service".data
        (fun acc line acc2 h hne => procLine_preserves_user_service acc line acc2 h hne)
        (rustLines content) {} acc hf hk
    obtain ⟨e, he⟩ := finalizeAcc_error_user_service acc (by rw [hen])
    exact ⟨e, by rw [bind_ok_eq, he]⟩

theorem from_text_missing_updated_at (content : String)
    (hk : ∀ line ∈ rustLines content, ¬ trimChars (splitEq line).1 = "updated_at".data) :
    ∃ e, TunState.from_text content = .error e := by
  show ∃ e, (rustLines content).foldlM procLine {} >>= finalizeAcc = .error e
  cases hf : (rustLines content).foldlM procLine {} with
  | error e => exact ⟨e, by rw [bind_error_eq]⟩
  | ok acc =>
    have hen : acc.updated_at = ({} : ParseAcc).updated_at :=
      foldlM_procLine_preserves (fun a => a.updated_at) "updated_at".data
        (fun acc line acc2 h hne => procLine_preserves_updated_at acc line acc2 h hne)
        (rustLines content) {} acc hf hk
    obtain ⟨e, he⟩ := finalizeAcc_error_updated_at acc (by rw [hen])
    exact ⟨e, by rw [bind_ok_eq, he]⟩

theorem from_text_default_backend (content : String) (st : TunState)
    (h : TunState.from_text content = .ok st)
    (hk : ∀ line ∈ rustLines content, ¬ trimChars (splitEq line).1 = "backend".data) :
    st.backend = RuleBackend.noneB := by
  revert h
  show ((rustLines content).foldlM procLine {} >>= finalizeAcc) = .ok st → _
  cases hf : (rustLines content).foldlM procLine {} with
  | error e =>
    rw [bind_error_eq]
    intro h
    cases h
  | ok acc =>
    rw [bind_ok_eq]
    intro h
    have hb : acc.backend = ({} : ParseAcc).backend :=
      foldlM_procLine_preserves (fun a => a.backend) "backend".data
        (fun acc line acc2 hs hne => procLine_preserves_backend acc line acc2 hs hne)
        (rustLines content) {} acc hf hk
    have hsh := (finalizeAcc_ok_shape acc st h).1
    rw [hsh, hb]
    rfl

theorem from_text_default_redir_port (content : String) (st : TunState)
    (h : TunState.from_text content = .ok st)
    (hk : ∀ line ∈ rustLines content, ¬ trimChars (splitEq line).1 = "redir_port".data) :
    st.redir_port = DEFAULT_REDIR_PORT := by
  revert h
  show ((rustLines content).foldlM procLine {} >>= finalizeAcc) = .ok st → _
  cases hf : (rustLines content).foldlM procLine {} with
  | error e =>
    rw [bind_error_eq]
    intro h
    cases h
  | ok acc =>
    rw [bind_ok_eq]
    intro h
    have hb : acc.redir_port = ({} : ParseAcc).redir_port :=
      foldlM_procLine_preserves (fun a => a.redir_port) "redir_port".data
        (fun acc line acc2 hs hne => procLine_preserves_redir_port acc line acc2 hs hne)
        (rustLines content) {} acc hf hk
    have hsh := (finalizeAcc_ok_shape acc st h).2.1
    rw [hsh, hb]
    rfl

theorem from_text_default_rules_applied (content : String) (st : TunState)
    (h : TunState.from_text content = .ok st)
    (hk : ∀ line ∈ rustLines content, ¬ trimChars (splitEq line).1 = "rules_applied".data) :
    st.rules_applied = false := by
  revert h
  show ((rustLines content).foldlM procLine {} >>= finalizeAcc) = .ok st → _
  cases hf : (rustLines content).foldlM procLine {} with
  | error e =>
    rw [bind_error_eq]
    intro h
    cases h
  | ok acc =>
    rw [bind_ok_eq]
    intro h
    have hb : acc.rules_applied = ({} : ParseAcc).rules_applied :=
      foldlM_procLine_preserves (fun a => a.rules_applied) "rules_applied".data
        (fun acc line acc2 hs hne => procLine_preserves_rules_applied acc line acc2 hs hne)
        (rustLines content) {} acc hf hk
    have hsh := (finalizeAcc_ok_shape acc st h).2.2
    rw [hsh, hb]
    rfl

theorem from_text_bad_redir_port (content : String) (line0 : List Char)
    (hmem : line0 ∈ rustLines content)
    (hkey : trimChars (splitEq line0).1 = "redir_port".data)
    (hval : parseU16 (String.mk (trimChars ((splitEq line0).2.getD []))) = none) :
    ∃ e, TunState.from_text content = .error e := by
  obtain ⟨e, he⟩ := foldlM_procLine_error (rustLines content) line0 hmem
    (fun acc => ⟨_, procLine_redir_port_error acc line0 hkey hval⟩) {}
  refine ⟨e, ?_⟩
  show (rustLines content).foldlM procLine {} >>= finalizeAcc = .error e
  rw [he, bind_error_eq]

theorem from_text_bad_updated_at (content : String) (line0 : List Char)
    (hmem : line0 ∈ rustLines content)
    (hkey : trimChars (splitEq line0).1 = "updated_at".data)
    (hval : parseU64 (String.mk (trimChars ((splitEq line0).2.getD []))) = none) :
    ∃ e, TunState.from_text content = .error e := by
  obtain ⟨e, he⟩ := foldlM_procLine_error (rustLines content) line0 hmem
    (fun acc => ⟨_, procLine_updated_at_error acc line0 hkey hval⟩) {}
  refine ⟨e, ?_⟩
  show (rustLines content).foldlM procLine {} >>= finalizeAcc = .error e
  rw [he, bind_error_eq]


/-- C10: state-file parsing requires `enabled`, `service_name`,
`user_service` and `updated_at` (absence errors), errors on a non-numeric
`redir_port` or `updated_at` value, defaults a missing `backend` to none,
a missing `redir_port` to 7892 and a missing `rules_applied` to false; and
for every `TunState` whose service name has no newline and no surrounding
whitespace (with the u16/u64 field bounds of the Rust types), parsing the
serialized text reconstructs the state. -/
theorem tun_state_text_parse_spec :
    (∀ content : String,
      (∀ line ∈ rustLines content, ¬ trimChars (splitEq line).1 = "enabled".data) →
      ∃ e, TunState.from_text content = .error e) ∧
    (∀ content : String,
      (∀ line ∈ rustLines content, ¬ trimChars (splitEq line).1 = "service_name".data) →
      ∃ e, TunState.from_text content = .error e) ∧
    (∀ content : String,
      (∀ line ∈ rustLines content, ¬ trimChars (splitEq line).1 = "user_service".data) →
      ∃ e, TunState.from_text content = .error e) ∧
    (∀ content : String,
      (∀ line ∈ rustLines content, ¬ trimChars (splitEq line).1 = "updated_at".data) →
      ∃ e, TunState.from_text content = .error e) ∧
    (∀ (content : String) (line0 : List Char), line0 ∈ rustLines content →
      trimChars (splitEq line0).1 = "redir_port".data →
      parseU16 (String.mk (trimChars ((splitEq line0).2.getD []))) = none →
      ∃ e, TunState.from_text content = .error e) ∧
    (∀ (content : String) (line0 : List Char), line0 ∈ rustLines content →
      trimChars (splitEq line0).1 = "updated_at".data →
      parseU64 (String.mk (trimChars ((splitEq line0).2.getD []))) = none →
      ∃ e, TunState.from_text content = .error e) ∧
    (∀ (content : String) (st : TunState), TunState.from_text content = .ok st →
      (∀ line ∈ rustLines content, ¬ trimChars (splitEq line).1 = "backend".data) →
      st.backend = RuleBackend.noneB) ∧
    (∀ (content : String) (st : TunState), TunState.from_text content = .ok st →
      (∀ line ∈ rustLines content, ¬ trimChars (splitEq line).1 = "redir_port".data) →
      st.redir_port = DEFAULT_REDIR_PORT) ∧
    (∀ (content : String) (st : TunState), TunState.from_text content = .ok st →
      (∀ line ∈ rustLines content, ¬ trimChars (splitEq line).1 = "rules_applied".data) →
      st.rules_applied = false) ∧
    (∀ s : TunState, (∀ c ∈ s.service_name.data, ¬ c = '\n') →
      trimChars s.service_name.data = s.service_name.data →
      s.redir_port < 65536 → s.updated_at < 2 ^ 64 →
      TunState.from_text (TunState.to_text s) = .ok s) :=
  ⟨from_text_missing_enabled, from_text_missing_service_name, from_text_missing_user_service,
    from_text_missing_updated_at, from_text_bad_redir_port, from_text_bad_updated_at,
    from_text_default_backend, from_text_default_redir_port, from_text_default_rules_applied,
    from_text_to_text⟩

/-- Witness for the C10 theorem: the serialize/parse round trip at a
concrete recorded state. -/
theorem tun_state_text_parse_spec_witness :
    TunState.from_text (TunState.to_text stNft) = .ok stNft :=
  tun_state_text_parse_spec.2.2.2.2.2.2.2.2.2 stNft (by decide) (by decide) (by decide) (by decide)

end ClashTun
